import Mathlib

/-!
Verification of the `aws_stepfunctions_models` validation library.

The Python source (package `aws_stepfunctions_models`: `utils.py`,
`base_models.py`, `main.py`) is embedded shallowly:

* JSON documents are the mutually inductive `J` / `JS` / `JM` below
  (values / arrays / objects, objects as ordered key-value spines).
* Each pydantic model class is embedded as a *schema*: its declared field
  names together with the field's type-and-per-field-validator check
  (`FTy`), plus its root validators as functions over the parsed fields.
* Validation ("constructing the model") is the recursive parser
  `parseFields` and friends; a successfully parsed object is a `PM`
  (the fields that were explicitly present, with their parsed values),
  which is exactly pydantic's `__fields_set__` together with the values.
* `dict(exclude_unset=True)` serialization is `sMap` / `sVal`.

Modelling conventions (deviations from the Python runtime, all
conservative and noted where they matter):

* The external structured-model library's type *coercions* are not
  modelled: a field declared `str` only accepts a JSON string, `int`
  only a JSON number, and so on.  JSON numbers are modelled as `Int`.
* An explicit JSON `null` for an optional field is not modelled;
  absent-vs-present is the tracked distinction (pydantic treats an
  explicit `None` the same as absent in every root validator used here,
  via `values.get(f) is not None`).
* Python `set` iteration order is not modelled; error payloads carrying
  name lists are characterised by membership only.
* Where Python would raise `IndexError`/`TypeError` inside a validator
  (which pydantic converts to a validation error or propagates), the
  embedding returns a validation error.
-/

/-! ## JSON documents -/

mutual

inductive J where
  | null
  | bool (b : Bool)
  | num (n : Int)
  | str (s : String)
  | arr (xs : JS)
  | obj (kvs : JM)

inductive JS where
  | nil
  | cons (hd : J) (tl : JS)

inductive JM where
  | nil
  | cons (k : String) (v : J) (tl : JM)

end

mutual

def sizeJ : J → Nat
  | .null | .bool _ | .num _ | .str _ => 1
  | .arr xs => sizeJS xs + 1
  | .obj kvs => sizeJM kvs + 1

def sizeJS : JS → Nat
  | .nil => 1
  | .cons h t => sizeJ h + sizeJS t + 1

def sizeJM : JM → Nat
  | .nil => 1
  | .cons _ v t => sizeJ v + sizeJM t + 1

end

/-- Build an object spine from a Lean list, for writing concrete documents. -/
def jobj (l : List (String × J)) : JM :=
  l.foldr (fun kv acc => .cons kv.1 kv.2 acc) .nil

/-- Build an array spine from a Lean list. -/
def jarr (l : List J) : JS :=
  l.foldr (fun v acc => .cons v acc) .nil

def keysJM : JM → List String
  | .nil => []
  | .cons k _ t => k :: keysJM t

def lookupJM : JM → String → Option J
  | .nil, _ => none
  | .cons k v t, k' => if k == k' then some v else lookupJM t k'

/-! ## Python string primitives -/

/-- Python `s.startswith(pre)`. -/
def pyStartsWith (s pre : String) : Bool :=
  pre.data.isPrefixOf s.data

/-- Python `s.endswith(suf)`. -/
def pyEndsWith (s suf : String) : Bool :=
  suf.data.isSuffixOf s.data

/-- Python `s[i]` with negative-index semantics; out of range gives `none`
(where Python raises `IndexError`). -/
def pyCharAt (s : String) (i : Int) : Option Char :=
  let cs := s.data
  let n : Int := if i < 0 then (cs.length : Int) + i else i
  if n < 0 then none else cs.get? n.toNat

/-! ## Validation error kinds (section 7 of the spec) -/

inductive Err where
  | unknownStateType
  | unexpectedField (k : String)
  | missingRequiredField (names : List String)
  | conflictingFields (names : List String)
  | invalidJsonPath
  | invalidTimestamp
  | emptyList
  | heartbeatExceedsTimeout
  | invalidStateName (names : List String)
  | emptyStateMap
  | unknownStateReference (names : List String)
  | unreachableState (names : List String)
  | invalidFieldValue
deriving DecidableEq

def exceptOk {α : Type} : Except Err α → Bool
  | .ok _ => true
  | .error _ => false

/-! ## `utils.enforce_jsonpath` -/

/-- Python `isinstance(v, str) and v.startswith("$.")`. -/
def isJsonPathStr : J → Bool
  | .str s => pyStartsWith s "$."
  | _ => false

mutual

/-- `utils.enforce_jsonpath`: `None` passes; a string must start with
`"$."`; a mapping is scanned: a key ending `".$"` must have a
`"$."`-string value, and a mapping value is checked recursively;
every other value passes unchanged. -/
def enforce_jsonpath : J → Except Err Unit
  | .null => .ok ()
  | .str s => if pyStartsWith s "$." then .ok () else .error .invalidJsonPath
  | .obj kvs => enforce_jsonpath_items kvs
  | _ => .ok ()

def enforce_jsonpath_items : JM → Except Err Unit
  | .nil => .ok ()
  | .cons k v t =>
    if pyEndsWith k ".$" && !(isJsonPathStr v) then .error .invalidJsonPath
    else
      match v with
      | .obj kvs =>
        match enforce_jsonpath_items kvs with
        | .error e => .error e
        | .ok _ => enforce_jsonpath_items t
      | _ => enforce_jsonpath_items t

end

mutual

/-- The JSONPath acceptance condition exactly as the specification states
it: `null` accepted; a string accepted iff it starts with `"$."`; a
mapping accepted iff every key ending `".$"` has a string value starting
with `"$."` and every nested mapping value recursively satisfies the same
rule; all other values unconstrained. -/
def jsonPathSpec : J → Bool
  | .null => true
  | .str s => pyStartsWith s "$."
  | .obj kvs => jsonPathSpecItems kvs
  | _ => true

def jsonPathSpecItems : JM → Bool
  | .nil => true
  | .cons k v t =>
    (if pyEndsWith k ".$" then isJsonPathStr v else true)
      && (match v with
          | .obj kvs => jsonPathSpecItems kvs
          | _ => true)
      && jsonPathSpecItems t

end

/-! ## `utils.enforce_datetime_format` -/

/-- Models the external `arrow` library's ISO-8601 parser
(`arrow.get(v)` succeeding).  Only behaviour independent of parseability
is at issue in the claims, so the parser is modelled as accepting; the
explicit checks that follow it are embedded faithfully. -/
def arrowParses (_ : String) : Bool := true

/-- `utils.enforce_datetime_format`, with the outcome of `arrow.get`
passed in as `parses`.  The four sequential checks of the source: ISO
parseability, length at least 10, `"T"` at offset 10, and the
timezone-suffix test `v[-5] != "+" and v[-3] != ":" and not
v.endswith("Z")`. -/
def enforce_datetime_format (parses : Bool) (v : String) : Except Err Unit :=
  if !parses then .error .invalidTimestamp
  else if v.data.length < 10 then .error .invalidTimestamp
  else if !(pyCharAt v 10 == some 'T') then .error .invalidTimestamp
  else if !(pyCharAt v (-5) == some '+') && !(pyCharAt v (-3) == some ':')
      && !(pyEndsWith v "Z") then .error .invalidTimestamp
  else .ok ()

/-! ## Parsed models

A successfully validated pydantic model instance is represented by the
fields that were explicitly present on the input (`__fields_set__`),
each with its validated value.  Scalar and plain-dict fields keep their
JSON value; fields holding nested models hold the nested parsed
object(s). -/

mutual

inductive PV where
  | prim (j : J)
  | node (fields : PM)
  | list (xs : PS)

inductive PM where
  | nil
  | cons (k : String) (v : PV) (tl : PM)

inductive PS where
  | nil
  | cons (hd : PV) (tl : PS)

end

/-! `dict(exclude_unset=True)` re-serialization: emit exactly the fields
that were explicitly set, recursively. -/

mutual

def sVal : PV → J
  | .prim j => j
  | .node fields => .obj (sMap fields)
  | .list xs => .arr (sSeq xs)

def sMap : PM → JM
  | .nil => .nil
  | .cons k v t => .cons k (sVal v) (sMap t)

def sSeq : PS → JS
  | .nil => .nil
  | .cons h t => .cons (sVal h) (sSeq t)

end

/-! Accessors over parsed fields, mirroring `values.get(...)` in the
source's root validators (an absent field reads as `None`; `End` has
default `False`). -/

def getP : PM → String → Option PV
  | .nil, _ => none
  | .cons k v t, k' => if k == k' then some v else getP t k'

def getStrP (fields : PM) (k : String) : Option String :=
  match getP fields k with
  | some (.prim (.str s)) => some s
  | _ => none

def getIntP (fields : PM) (k : String) : Option Int :=
  match getP fields k with
  | some (.prim (.num n)) => some n
  | _ => none

/-- `values.get(k, False)` for the strict-bool `End` field. -/
def getBoolP (fields : PM) (k : String) : Bool :=
  match getP fields k with
  | some (.prim (.bool b)) => b
  | _ => false

/-- `values.get(f) is not None`. -/
def isSetP (fields : PM) (k : String) : Bool :=
  (getP fields k).isSome

/-! ## `utils.enforce_exclusive_fields` -/

/-- `utils.enforce_exclusive_fields`: among `exclusive` the fields set on
`values`; more than one set is a conflict, zero set is a missing-field
error.  (Python collects `set_fields` as a `set`; the candidate lists
used in the source contain no duplicates, so a filtered list is the same
collection.) -/
def enforce_exclusive_fields (values : PM) (exclusive : List String) :
    Except Err Unit :=
  let setFields := exclusive.filter (fun f => isSetP values f)
  if setFields.length > 1 then .error (.conflictingFields setFields)
  else if setFields.length == 0 then .error (.missingRequiredField exclusive)
  else .ok ()

/-! ## `base_models.NextOrEndState` -/

/-- Python truthiness of an `Optional[str]`. -/
def truthyOptStr : Option String → Bool
  | some s => !(s == "")
  | none => false

/-- The root validator of `NextOrEndState`, over the values of `Next`
(`Optional[str]`) and `End` (`StrictBool`, default `False`): `if
values.get("Next") and values.get("End")` is a conflict; `if
values.get("Next") is None and not values.get("End", False)` both are
missing. -/
def nextOrEndCore (nxt : Option String) (end_flag : Bool) : Except Err Unit :=
  if truthyOptStr nxt && end_flag then .error (.conflictingFields ["Next", "End"])
  else if nxt.isNone && !end_flag then .error (.missingRequiredField ["Next", "End"])
  else .ok ()

def NextOrEndState.validate_mutually_exclusive_fields (values : PM) :
    Except Err Unit :=
  nextOrEndCore (getStrP values "Next") (getBoolP values "End")

/-! ## State kinds (`main.StateType`) -/

inductive StateType where
  | Pass | Task | Wait | Choice | Fail | Parallel | Map | Succeed
deriving DecidableEq

def stateTypeOfTag (tag : String) : Option StateType :=
  if tag == "Pass" then some .Pass
  else if tag == "Task" then some .Task
  else if tag == "Wait" then some .Wait
  else if tag == "Choice" then some .Choice
  else if tag == "Fail" then some .Fail
  else if tag == "Parallel" then some .Parallel
  else if tag == "Map" then some .Map
  else if tag == "Succeed" then some .Succeed
  else none

/-- The discriminant of a parsed state, from its stored `Type` field. -/
def stateTypeOf (st : PM) : Option StateType :=
  match getStrP st "Type" with
  | some tag => stateTypeOfTag tag
  | none => none

/-! ## Per-class root validators from `main.py` -/

/-- `TaskState.validate_mutually_exclusive_fields`: the three exclusivity
groups, in source order. -/
def TaskState.validate_mutually_exclusive_fields (values : PM) : Except Err Unit :=
  match enforce_exclusive_fields values ["InputPath", "Parameters"] with
  | .error e => .error e
  | .ok _ =>
    match enforce_exclusive_fields values ["TimeoutSeconds", "TimeoutSecondsPath"] with
    | .error e => .error e
    | .ok _ =>
      enforce_exclusive_fields values ["HeartbeatSeconds", "HeartbeatSecondsPath"]

/-- `TaskState.validate_heartbeat_seconds_le_timeout_seconds`. -/
def TaskState.validate_heartbeat_le_timeout (values : PM) : Except Err Unit :=
  match getIntP values "HeartbeatSeconds", getIntP values "TimeoutSeconds" with
  | some hb, some ts => if hb > ts then .error .heartbeatExceedsTimeout else .ok ()
  | _, _ => .ok ()

/-- `WaitState.validate_mutually_exclusive_fields`. -/
def WaitState.validate_mutually_exclusive_fields (values : PM) : Except Err Unit :=
  enforce_exclusive_fields values ["Seconds", "Timestamp", "SecondsPath", "TimestampPath"]

/-- The candidate operator fields of
`DataTestExpression.validate_only_one_rule_is_set`:
`values.keys()` minus `{"Variable", "Next"}`. -/
def dteRuleFields (names : List String) : List String :=
  names.filter (fun k => !(k == "Variable" || k == "Next"))

/-- `DataTestExpression.validate_only_one_rule_is_set`, with `names` the
declared field names of the model (`values.keys()`). -/
def DataTestExpression.validate_only_one_rule_is_set (names : List String)
    (values : PM) : Except Err Unit :=
  enforce_exclusive_fields values (dteRuleFields names)

/-- `BooleanExpression.validate_only_one_boolean_choice_rule_set`. -/
def BooleanExpression.validate_only_one_rule (values : PM) : Except Err Unit :=
  enforce_exclusive_fields values ["And", "Or", "Not"]

/-! ## `transitions` properties (`main.py`) -/

/-- `Catchers.transitions = [self.Next]`. -/
def Catchers.transitions (cf : PM) : List String :=
  [(getStrP cf "Next").getD ""]

/-- `transitions.extend(catcher.transitions)` over a parsed `Catch` list. -/
def catchersTransitions : PS → List String
  | .nil => []
  | .cons (.node cf) t => Catchers.transitions cf ++ catchersTransitions t
  | .cons _ t => catchersTransitions t

def getCatchSeq (st : PM) : Option PS :=
  match getP st "Catch" with
  | some (.list cs) => some cs
  | _ => none

/-- The catch-target contribution of a Task/Parallel/Map state:
`if self.Catch: for catcher in self.Catch: extend(...)`. -/
def catchPartOf (st : PM) : List String :=
  match getCatchSeq st with
  | some cs => catchersTransitions cs
  | none => []

/-- `[self.Next] if self.Next else []` (Python truthiness). -/
def nextPartOf (st : PM) : List String :=
  if truthyOptStr (getStrP st "Next") then [(getStrP st "Next").getD ""] else []

def PassState.transitions (st : PM) : List String := nextPartOf st

def WaitState.transitions (st : PM) : List String := nextPartOf st

def TaskState.transitions (st : PM) : List String :=
  nextPartOf st ++ catchPartOf st

def ParallelState.transitions (st : PM) : List String :=
  nextPartOf st ++ catchPartOf st

def MapState.transitions (st : PM) : List String :=
  nextPartOf st ++ catchPartOf st

/-- `choice.Next` for each choice rule, in declaration order. -/
def choicesTransitions : PS → List String
  | .nil => []
  | .cons (.node cf) t => (getStrP cf "Next").getD "" :: choicesTransitions t
  | .cons _ t => choicesTransitions t

def ChoiceState.transitions (st : PM) : List String :=
  (if truthyOptStr (getStrP st "Default") then [(getStrP st "Default").getD ""] else [])
    ++ (match getP st "Choices" with
        | some (.list cs) => choicesTransitions cs
        | _ => [])

def FailState.transitions (_ : PM) : List String := []

def SucceedState.transitions (_ : PM) : List String := []

/-- `state.transitions` of an arbitrary parsed state, dispatched on its
discriminant. -/
def stateTransitions (st : PM) : List String :=
  match stateTypeOf st with
  | some .Pass => PassState.transitions st
  | some .Task => TaskState.transitions st
  | some .Wait => WaitState.transitions st
  | some .Choice => ChoiceState.transitions st
  | some .Fail => FailState.transitions st
  | some .Succeed => SucceedState.transitions st
  | some .Parallel => ParallelState.transitions st
  | some .Map => MapState.transitions st
  | none => []

/-! ## `StepFunctionDefinition` graph validation -/

/-- `referenced_states = {values["StartAt"]} ∪ ⋃ state.transitions`
(as a list; set-ness is recovered by `dedup`/membership). -/
def referencedStatesList (startAt : String) (states : List (String × PM)) :
    List String :=
  startAt :: states.flatMap (fun st => stateTransitions st.2)

/-- `defined_states = set(states.keys())`. -/
def definedStatesList (states : List (String × PM)) : List String :=
  states.map Prod.fst

/-- `StepFunctionDefinition.validate_transition_states_exist`: fail on
`referenced − defined` first (`UnknownStateReference`), then on
`defined − referenced` (`UnreachableState`), else accept. -/
def validate_transition_states_exist (startAt : String)
    (states : List (String × PM)) : Except Err Unit :=
  let referenced := referencedStatesList startAt states
  let defined := definedStatesList states
  let undefinedS := referenced.dedup.filter (fun r => decide (r ∉ defined))
  if undefinedS.isEmpty then
    let unreachableS := defined.dedup.filter (fun d => decide (d ∉ referenced))
    if unreachableS.isEmpty then .ok ()
    else .error (.unreachableState unreachableS)
  else .error (.unknownStateReference undefinedS)

/-- The states mapping of a parsed definition, as a name-to-fields list.
(Parsed `States` values are always `.node`s; anything else is mapped to
an empty field record, unreachable for parser output.) -/
def toListStates : PM → List (String × PM)
  | .nil => []
  | .cons k (.node fields) t => (k, fields) :: toListStates t
  | .cons k _ t => (k, .nil) :: toListStates t

/-- `StepFunctionDefinition.validate_transition_states_exist` as applied
to the parsed fields of a definition. -/
def definitionRoot (fields : PM) : Except Err Unit :=
  match getStrP fields "StartAt", getP fields "States" with
  | some sa, some (.node statesPM) =>
    validate_transition_states_exist sa (toListStates statesPM)
  | _, _ => .ok ()

/-! ## Schemas: the declared fields of each model class

`FTy` is the field's declared type together with its attached per-field
validators, exactly as wired in `main.py`. -/

inductive FTy where
  /-- `te.Literal[StateType.X]`, the `Type` discriminator. -/
  | lit (tag : String)
  /-- `str` / `Optional[str]`. -/
  | str
  /-- `StrictBool` / `Optional[StrictBool]`. -/
  | strictBool
  /-- `Optional[int]`. -/
  | int
  /-- `Optional[PositiveInt]`. -/
  | posInt
  /-- `Optional[PositiveFloat]` (numbers are modelled as integers). -/
  | posNum
  /-- a `str` field with the `enforce_jsonpath` validator attached. -/
  | jpStr
  /-- a `str` field with the `enforce_datetime_format` validator attached. -/
  | isoStr
  /-- `WaitState.Timestamp`: declared `Optional[datetime.datetime]` with the
  `enforce_datetime_format` validator attached.  The validator receives the
  coerced `datetime` object, on which `len(v)` raises `TypeError`, which
  pydantic converts to a validation error — so the field never validates. -/
  | waitTimestamp
  /-- a `Dict[str, Any]` (or `Optional[dict]`) field with `enforce_jsonpath`. -/
  | jpDict
  /-- `List[str] = Field(..., min_items=1)`. -/
  | strList1
  /-- `Optional[List[Retriers]] = Field(None, min_items=1)`. -/
  | retryList
  /-- `Optional[List[Catchers]] = Field(None, min_items=1)`. -/
  | catchList
  /-- `List[Union[BooleanExpressionWithTransition,
  DataTestExpressionWithTransition]] = Field(..., min_items=1)`. -/
  | choiceList
  /-- `Optional[List[Union[DataTestExpression, BooleanExpression]]]` with the
  `enforce_min_items` validator attached (`And` / `Or`). -/
  | exprList
  /-- `Optional[Union[DataTestExpression, BooleanExpression]]` (`Not`). -/
  | notExpr
  /-- `List[StepFunctionDefinition]` with `enforce_min_items` (`Branches`). -/
  | branchList
  /-- `StepFunctionDefinition` (`Iterator`). -/
  | iterator
  /-- `Dict[str, StepFunctionState]` with the `validate_states` validator
  (`States`). -/
  | statesMap

structure FieldSpec where
  name : String
  required : Bool
  ty : FTy

/-- `Catchers` (the stray `validator("ResultPath")` in the source refers
to a field the class does not declare and contributes nothing). -/
def catchersSchema : List FieldSpec :=
  [⟨"ErrorEquals", true, .strList1⟩, ⟨"Next", true, .str⟩]

/-- `Retriers`.  Unlike every other model class in `main.py`, `Retriers`
declares no `Config`, so the external library's default *open-schema*
policy applies to it: unknown keys are silently ignored rather than
rejected (see `parseRetriers`). -/
def retriersSchema : List FieldSpec :=
  [⟨"ErrorEquals", true, .strList1⟩, ⟨"IntervalSeconds", false, .posInt⟩,
   ⟨"MaxAttempts", false, .posInt⟩, ⟨"BackoffRate", false, .posNum⟩]

/-- `DataTestExpression`: `Variable` plus the 39 optional operator fields,
in declaration order, with the `enforce_jsonpath` validator on `Variable`
and every `...Path` operator and `enforce_datetime_format` on the five
non-path `Timestamp...` operators. -/
def dataTestExpressionSchema : List FieldSpec :=
  [⟨"Variable", true, .jpStr⟩,
   ⟨"StringEquals", false, .str⟩, ⟨"StringEqualsPath", false, .jpStr⟩,
   ⟨"StringLessThan", false, .str⟩, ⟨"StringLessThanPath", false, .jpStr⟩,
   ⟨"StringGreaterThan", false, .str⟩, ⟨"StringGreaterThanPath", false, .jpStr⟩,
   ⟨"StringLessThanEquals", false, .str⟩, ⟨"StringLessThanEqualsPath", false, .jpStr⟩,
   ⟨"StringGreaterThanEquals", false, .str⟩, ⟨"StringGreaterThanEqualsPath", false, .jpStr⟩,
   ⟨"StringMatches", false, .str⟩,
   ⟨"NumericEquals", false, .str⟩, ⟨"NumericEqualsPath", false, .jpStr⟩,
   ⟨"NumericLessThan", false, .str⟩, ⟨"NumericLessThanPath", false, .jpStr⟩,
   ⟨"NumericGreaterThan", false, .str⟩, ⟨"NumericGreaterThanPath", false, .jpStr⟩,
   ⟨"NumericLessThanEquals", false, .str⟩, ⟨"NumericLessThanEqualsPath", false, .jpStr⟩,
   ⟨"NumericGreaterThanEquals", false, .str⟩, ⟨"NumericGreaterThanEqualsPath", false, .jpStr⟩,
   ⟨"BooleanEquals", false, .strictBool⟩, ⟨"BooleanEqualsPath", false, .jpStr⟩,
   ⟨"TimestampEquals", false, .isoStr⟩, ⟨"TimestampEqualsPath", false, .jpStr⟩,
   ⟨"TimestampLessThan", false, .isoStr⟩, ⟨"TimestampLessThanPath", false, .jpStr⟩,
   ⟨"TimestampGreaterThan", false, .isoStr⟩, ⟨"TimestampGreaterThanPath", false, .jpStr⟩,
   ⟨"TimestampLessThanEquals", false, .isoStr⟩, ⟨"TimestampLessThanEqualsPath", false, .jpStr⟩,
   ⟨"TimestampGreaterThanEquals", false, .isoStr⟩, ⟨"TimestampGreaterThanEqualsPath", false, .jpStr⟩,
   ⟨"IsNull", false, .strictBool⟩, ⟨"IsPresent", false, .strictBool⟩,
   ⟨"IsNumeric", false, .strictBool⟩, ⟨"IsString", false, .strictBool⟩,
   ⟨"IsBoolean", false, .strictBool⟩, ⟨"IsTimestamp", false, .strictBool⟩]

/-- `DataTestExpressionWithTransition` adds a required `Next`. -/
def dtewtSchema : List FieldSpec :=
  dataTestExpressionSchema ++ [⟨"Next", true, .str⟩]

/-- `BooleanExpression`. -/
def booleanExpressionSchema : List FieldSpec :=
  [⟨"And", false, .exprList⟩, ⟨"Or", false, .exprList⟩, ⟨"Not", false, .notExpr⟩]

/-- `BooleanExpressionWithTransition` adds a required `Next`. -/
def bewtSchema : List FieldSpec :=
  booleanExpressionSchema ++ [⟨"Next", true, .str⟩]

/-- `ChoiceState`. -/
def choiceSchema : List FieldSpec :=
  [⟨"Type", true, .lit "Choice"⟩, ⟨"Comment", false, .str⟩,
   ⟨"InputPath", false, .jpStr⟩, ⟨"OutputPath", false, .jpStr⟩,
   ⟨"Choices", true, .choiceList⟩, ⟨"Default", false, .str⟩]

/-- `TaskState` (the `NextOrEndState` base fields first). -/
def taskSchema : List FieldSpec :=
  [⟨"Next", false, .str⟩, ⟨"End", false, .strictBool⟩,
   ⟨"Type", true, .lit "Task"⟩, ⟨"Comment", false, .str⟩,
   ⟨"InputPath", false, .jpStr⟩, ⟨"OutputPath", false, .jpStr⟩,
   ⟨"ResultPath", false, .jpStr⟩, ⟨"ResultSelector", false, .jpDict⟩,
   ⟨"Parameters", false, .jpDict⟩, ⟨"Resource", true, .str⟩,
   ⟨"TimeoutSeconds", false, .posInt⟩, ⟨"TimeoutSecondsPath", false, .jpStr⟩,
   ⟨"HeartbeatSeconds", false, .posInt⟩, ⟨"HeartbeatSecondsPath", false, .jpStr⟩,
   ⟨"Retry", false, .retryList⟩, ⟨"Catch", false, .catchList⟩]

/-- `FailState`. -/
def failSchema : List FieldSpec :=
  [⟨"Type", true, .lit "Fail"⟩, ⟨"Comment", false, .str⟩,
   ⟨"Cause", false, .str⟩, ⟨"Error", false, .str⟩]

/-- `SucceedState`. -/
def succeedSchema : List FieldSpec :=
  [⟨"Type", true, .lit "Succeed"⟩, ⟨"Comment", false, .str⟩,
   ⟨"InputPath", false, .jpStr⟩, ⟨"OutputPath", false, .jpStr⟩]

/-- `PassState`. -/
def passSchema : List FieldSpec :=
  [⟨"Next", false, .str⟩, ⟨"End", false, .strictBool⟩,
   ⟨"Type", true, .lit "Pass"⟩, ⟨"Comment", false, .str⟩,
   ⟨"InputPath", false, .jpStr⟩, ⟨"OutputPath", false, .jpStr⟩,
   ⟨"Result", false, .jpDict⟩, ⟨"ResultPath", false, .jpStr⟩,
   ⟨"Parameters", false, .jpDict⟩]

/-- `WaitState`. -/
def waitSchema : List FieldSpec :=
  [⟨"Next", false, .str⟩, ⟨"End", false, .strictBool⟩,
   ⟨"Type", true, .lit "Wait"⟩, ⟨"Comment", false, .str⟩,
   ⟨"InputPath", false, .jpStr⟩, ⟨"OutputPath", false, .jpStr⟩,
   ⟨"Seconds", false, .int⟩, ⟨"Timestamp", false, .waitTimestamp⟩,
   ⟨"SecondsPath", false, .jpStr⟩, ⟨"TimestampPath", false, .jpStr⟩]

/-- `ParallelState`. -/
def parallelSchema : List FieldSpec :=
  [⟨"Next", false, .str⟩, ⟨"End", false, .strictBool⟩,
   ⟨"Type", true, .lit "Parallel"⟩, ⟨"Comment", false, .str⟩,
   ⟨"InputPath", false, .jpStr⟩, ⟨"OutputPath", false, .jpStr⟩,
   ⟨"ResultPath", false, .jpStr⟩, ⟨"ResultSelector", false, .jpDict⟩,
   ⟨"Parameters", false, .jpDict⟩, ⟨"Branches", true, .branchList⟩,
   ⟨"Retry", false, .retryList⟩, ⟨"Catch", false, .catchList⟩]

/-- `MapState`. -/
def mapSchema : List FieldSpec :=
  [⟨"Next", false, .str⟩, ⟨"End", false, .strictBool⟩,
   ⟨"Type", true, .lit "Map"⟩, ⟨"Comment", false, .str⟩,
   ⟨"InputPath", false, .jpStr⟩, ⟨"OutputPath", false, .jpStr⟩,
   ⟨"ResultPath", false, .jpStr⟩, ⟨"ResultSelector", false, .jpDict⟩,
   ⟨"Parameters", false, .jpDict⟩, ⟨"Iterator", true, .iterator⟩,
   ⟨"ItemsPath", false, .jpStr⟩, ⟨"MaxConcurrency", false, .posInt⟩,
   ⟨"Retry", false, .retryList⟩, ⟨"Catch", false, .catchList⟩]

/-- `StepFunctionDefinition`. -/
def definitionSchema : List FieldSpec :=
  [⟨"StartAt", true, .str⟩, ⟨"States", true, .statesMap⟩,
   ⟨"Comment", false, .str⟩]

/-- The schema of the state variant selected by the `Type` discriminator
(`StepFunctionState`, `Field(discriminator="Type")`). -/
def schemaForTag (tag : String) : Option (List FieldSpec) :=
  match stateTypeOfTag tag with
  | some .Pass => some passSchema
  | some .Task => some taskSchema
  | some .Wait => some waitSchema
  | some .Choice => some choiceSchema
  | some .Fail => some failSchema
  | some .Succeed => some succeedSchema
  | some .Parallel => some parallelSchema
  | some .Map => some mapSchema
  | none => none

/-- The root validators of the state variant selected by the `Type`
discriminator, in pydantic's order (base class first). -/
def rootForTag (tag : String) (fields : PM) : Except Err Unit :=
  match stateTypeOfTag tag with
  | some .Pass | some .Parallel | some .Map =>
    NextOrEndState.validate_mutually_exclusive_fields fields
  | some .Task =>
    match NextOrEndState.validate_mutually_exclusive_fields fields with
    | .error e => .error e
    | .ok _ =>
      match TaskState.validate_mutually_exclusive_fields fields with
      | .error e => .error e
      | .ok _ => TaskState.validate_heartbeat_le_timeout fields
  | some .Wait =>
    match NextOrEndState.validate_mutually_exclusive_fields fields with
    | .error e => .error e
    | .ok _ => WaitState.validate_mutually_exclusive_fields fields
  | some .Choice | some .Fail | some .Succeed | none => .ok ()

/-! ## The generic construction engine

These pieces model what the external structured-model library does for
every class: reject undeclared keys (`Extra.forbid`), check that
required fields are present, run each present field's type check and
attached validators, then run the root validators. -/

def fieldTy (schema : List FieldSpec) (k : String) : Option FTy :=
  match schema.find? (fun f => f.name == k) with
  | some f => some f.ty
  | none => none

/-- The first input key not declared by the schema (`Extra.forbid`). -/
def firstUndeclared (schema : List FieldSpec) (ks : List String) : Option String :=
  ks.find? (fun k => (fieldTy schema k).isNone)

/-- Required fields that are absent from the input keys. -/
def requiredMissing (schema : List FieldSpec) (ks : List String) : List String :=
  (schema.filter (fun f => f.required && !(ks.contains f.name))).map (fun f => f.name)

/-- Closed-schema and required-field admission for one object. -/
def preCheck (schema : List FieldSpec) (m : JM) : Except Err Unit :=
  match firstUndeclared schema (keysJM m) with
  | some k => .error (.unexpectedField k)
  | none =>
    let miss := requiredMissing schema (keysJM m)
    if miss.isEmpty then .ok () else .error (.missingRequiredField miss)

/-- Required-field admission without the closed-schema scan: the
external library's default policy for a class with no `Config`
(`Retriers` alone) still reports missing required fields but tolerates
unknown keys. -/
def preCheckIgnore (schema : List FieldSpec) (m : JM) : Except Err Unit :=
  let miss := requiredMissing schema (keysJM m)
  if miss.isEmpty then .ok () else .error (.missingRequiredField miss)

/-- `validate_states` (field validator on `StepFunctionDefinition.States`):
at least one state, and every name between 1 and 128 characters. -/
def validate_states_names (names : List String) : Except Err Unit :=
  if names.length < 1 then .error .emptyStateMap
  else
    let invalid := names.filter (fun n => decide (n.length > 128) || decide (n.length == 0))
    if invalid.isEmpty then .ok () else .error (.invalidStateName invalid)

def allStringsJS : JS → Bool
  | .nil => true
  | .cons (.str _) t => allStringsJS t
  | .cons _ _ => false

def isNilJS : JS → Bool
  | .nil => true
  | _ => false

/-- `values.keys()` of `DataTestExpression`. -/
def dteNames : List String := dataTestExpressionSchema.map (fun f => f.name)

/-- `values.keys()` of `DataTestExpressionWithTransition`. -/
def dtewtNames : List String := dtewtSchema.map (fun f => f.name)

/-- Field kinds parsed without recursion into sub-models; their parsed
value is the raw input value. -/
def isPrimTy : FTy → Bool
  | .lit _ | .str | .strictBool | .int | .posInt | .posNum
  | .jpStr | .isoStr | .waitTimestamp | .jpDict | .strList1 => true
  | .retryList | .catchList | .choiceList | .exprList | .notExpr
  | .branchList | .iterator | .statesMap => false

def isRetryListTy : FTy → Bool
  | .retryList => true
  | _ => false

/-- Every schema in this development gives the `retryList` type only to
the field named `Retry`. -/
def retryConv (schema : List FieldSpec) : Bool :=
  schema.all (fun f => f.name == "Retry" || !(isRetryListTy f.ty))

/-- The keys of one `Retry` element are all declared by `Retriers`, so
its open-schema policy drops nothing. -/
def retrierKeysDeclared : JM → Bool
  | .nil => true
  | .cons k _ t => (fieldTy retriersSchema k).isSome && retrierKeysDeclared t

def retryElemsDeclared : JS → Bool
  | .nil => true
  | .cons (.obj cm) t => retrierKeysDeclared cm && retryElemsDeclared t
  | .cons _ t => retryElemsDeclared t

def retryOk : J → Bool
  | .arr xs => retryElemsDeclared xs
  | _ => true

/-- The retry-cleanliness obligation one key/value pair contributes. -/
def retryOkKey (k : String) (v : J) : Bool :=
  if k == "Retry" then retryOk v else true

mutual

/-- No unknown keys under any `Retry` field anywhere in the document:
the condition under which the open-schema `Retriers` policy drops
nothing (used to state the amended round-trip property). -/
def cleanJ : J → Bool
  | .obj kvs => cleanJM kvs
  | .arr xs => cleanJS xs
  | _ => true

def cleanJS : JS → Bool
  | .nil => true
  | .cons h t => cleanJ h && cleanJS t

def cleanJM : JM → Bool
  | .nil => true
  | .cons k v t => retryOkKey k v && cleanJ v && cleanJM t

end

/-- The cleanliness needed when parsing one field value of type `ty`. -/
def cleanForTy (ty : FTy) (v : J) : Bool :=
  cleanJ v && (if isRetryListTy ty then retryOk v else true)

/-! ## The document parser (model construction)

Mutually recursive over the document; every recursive call is on a
strict subterm.  Union fields (`Choices` elements, `And`/`Or`/`Not`
operands) try the union's member types in their declared order, as
pydantic v1 does. -/

mutual

/-- Parse and validate one field value of declared type `ty`. -/
def parseVal : FTy → J → Except Err PV
  | .lit tag, v =>
    match v with
    | .str s => if s == tag then .ok (.prim (.str s)) else .error .invalidFieldValue
    | _ => .error .invalidFieldValue
  | .str, v =>
    match v with
    | .str s => .ok (.prim (.str s))
    | _ => .error .invalidFieldValue
  | .strictBool, v =>
    match v with
    | .bool b => .ok (.prim (.bool b))
    | _ => .error .invalidFieldValue
  | .int, v =>
    match v with
    | .num n => .ok (.prim (.num n))
    | _ => .error .invalidFieldValue
  | .posInt, v =>
    match v with
    | .num n => if 0 < n then .ok (.prim (.num n)) else .error .invalidFieldValue
    | _ => .error .invalidFieldValue
  | .posNum, v =>
    match v with
    | .num n => if 0 < n then .ok (.prim (.num n)) else .error .invalidFieldValue
    | _ => .error .invalidFieldValue
  | .jpStr, v =>
    match v with
    | .str s =>
      match enforce_jsonpath (.str s) with
      | .error e => .error e
      | .ok _ => .ok (.prim (.str s))
    | _ => .error .invalidFieldValue
  | .isoStr, v =>
    match v with
    | .str s =>
      match enforce_datetime_format (arrowParses s) s with
      | .error e => .error e
      | .ok _ => .ok (.prim (.str s))
    | _ => .error .invalidFieldValue
  | .waitTimestamp, _ => .error .invalidTimestamp
  | .jpDict, v =>
    match v with
    | .obj kvs =>
      match enforce_jsonpath_items kvs with
      | .error e => .error e
      | .ok _ => .ok (.prim (.obj kvs))
    | _ => .error .invalidFieldValue
  | .strList1, v =>
    match v with
    | .arr xs =>
      if isNilJS xs then .error .emptyList
      else if allStringsJS xs then .ok (.prim (.arr xs))
      else .error .invalidFieldValue
    | _ => .error .invalidFieldValue
  | .retryList, v =>
    match v with
    | .arr xs =>
      if isNilJS xs then .error .emptyList
      else
        match parseRetriers xs with
        | .error e => .error e
        | .ok ps => .ok (.list ps)
    | _ => .error .invalidFieldValue
  | .catchList, v =>
    match v with
    | .arr xs =>
      if isNilJS xs then .error .emptyList
      else
        match parseCatchers xs with
        | .error e => .error e
        | .ok ps => .ok (.list ps)
    | _ => .error .invalidFieldValue
  | .choiceList, v =>
    match v with
    | .arr xs =>
      if isNilJS xs then .error .emptyList
      else
        match parseChoices xs with
        | .error e => .error e
        | .ok ps => .ok (.list ps)
    | _ => .error .invalidFieldValue
  | .exprList, v =>
    match v with
    | .arr xs =>
      match parseExprElems xs with
      | .error e => .error e
      | .ok ps => if isNilJS xs then .error .emptyList else .ok (.list ps)
    | _ => .error .invalidFieldValue
  | .notExpr, v =>
    match v with
    | .obj em =>
      let tryDTE : Except Err PM :=
        match preCheck dataTestExpressionSchema em with
        | .error e => .error e
        | .ok _ =>
          match parseFields dataTestExpressionSchema em with
          | .error e => .error e
          | .ok fs =>
            match DataTestExpression.validate_only_one_rule_is_set dteNames fs with
            | .error e => .error e
            | .ok _ => .ok fs
      match tryDTE with
      | .ok fs => .ok (.node fs)
      | .error _ =>
        let tryBool : Except Err PM :=
          match preCheck booleanExpressionSchema em with
          | .error e => .error e
          | .ok _ =>
            match parseFields booleanExpressionSchema em with
            | .error e => .error e
            | .ok fs =>
              match BooleanExpression.validate_only_one_rule fs with
              | .error e => .error e
              | .ok _ => .ok fs
        match tryBool with
        | .ok fs => .ok (.node fs)
        | .error e => .error e
    | _ => .error .invalidFieldValue
  | .branchList, v =>
    match v with
    | .arr xs =>
      match parseDefs xs with
      | .error e => .error e
      | .ok ps => if isNilJS xs then .error .emptyList else .ok (.list ps)
    | _ => .error .invalidFieldValue
  | .iterator, v =>
    match v with
    | .obj dm =>
      match preCheck definitionSchema dm with
      | .error e => .error e
      | .ok _ =>
        match parseFields definitionSchema dm with
        | .error e => .error e
        | .ok fs =>
          match definitionRoot fs with
          | .error e => .error e
          | .ok _ => .ok (.node fs)
    | _ => .error .invalidFieldValue
  | .statesMap, v =>
    match v with
    | .obj sm =>
      match parseStates sm with
      | .error e => .error e
      | .ok pm =>
        match validate_states_names (keysJM sm) with
        | .error e => .error e
        | .ok _ => .ok (.node pm)
    | _ => .error .invalidFieldValue

/-- Parse the present fields of one object against a schema, keeping
them in input order. -/
def parseFields (schema : List FieldSpec) : JM → Except Err PM
  | .nil => .ok .nil
  | .cons k v t =>
    match fieldTy schema k with
    | none => .error (.unexpectedField k)
    | some ty =>
      match parseVal ty v with
      | .error e => .error e
      | .ok pv =>
        match parseFields schema t with
        | .error e => .error e
        | .ok rest => .ok (.cons k pv rest)

/-- Parse the present *declared* fields of one object, silently dropping
undeclared keys: the external library's default open-schema policy,
used only for `Retriers`. -/
def parseFieldsIgnore (schema : List FieldSpec) : JM → Except Err PM
  | .nil => .ok .nil
  | .cons k v t =>
    match fieldTy schema k with
    | none => parseFieldsIgnore schema t
    | some ty =>
      match parseVal ty v with
      | .error e => .error e
      | .ok pv =>
        match parseFieldsIgnore schema t with
        | .error e => .error e
        | .ok rest => .ok (.cons k pv rest)

/-- Parse the `States` mapping: each value is a state object dispatched
on its `Type` discriminator to the matching variant schema and root
validators. -/
def parseStates : JM → Except Err PM
  | .nil => .ok .nil
  | .cons name sj t =>
    match sj with
    | .obj sm =>
      match lookupJM sm "Type" with
      | some (.str tag) =>
        match schemaForTag tag with
        | some sch =>
          match preCheck sch sm with
          | .error e => .error e
          | .ok _ =>
            match parseFields sch sm with
            | .error e => .error e
            | .ok fs =>
              match rootForTag tag fs with
              | .error e => .error e
              | .ok _ =>
                match parseStates t with
                | .error e => .error e
                | .ok rest => .ok (.cons name (.node fs) rest)
        | none => .error .unknownStateType
      | _ => .error .unknownStateType
    | _ => .error .invalidFieldValue

/-- Parse a `Catch` list (`Catchers` elements). -/
def parseCatchers : JS → Except Err PS
  | .nil => .ok .nil
  | .cons hd t =>
    match hd with
    | .obj cm =>
      match preCheck catchersSchema cm with
      | .error e => .error e
      | .ok _ =>
        match parseFields catchersSchema cm with
        | .error e => .error e
        | .ok fs =>
          match parseCatchers t with
          | .error e => .error e
          | .ok rest => .ok (.cons (.node fs) rest)
    | _ => .error .invalidFieldValue

/-- Parse a `Retry` list (`Retriers` elements).  `Retriers` is the one
model class in `main.py` without a `Config`, so the external library's
default open-schema policy applies: unknown keys are silently ignored,
never rejected.  Hence no closed-schema admission here, and undeclared
keys present on an element are dropped by `parseFieldsIgnore`. -/
def parseRetriers : JS → Except Err PS
  | .nil => .ok .nil
  | .cons hd t =>
    match hd with
    | .obj cm =>
      match preCheckIgnore retriersSchema cm with
      | .error e => .error e
      | .ok _ =>
        match parseFieldsIgnore retriersSchema cm with
        | .error e => .error e
        | .ok fs =>
          match parseRetriers t with
          | .error e => .error e
          | .ok rest => .ok (.cons (.node fs) rest)
    | _ => .error .invalidFieldValue

/-- Parse a `Choices` list:
`Union[BooleanExpressionWithTransition, DataTestExpressionWithTransition]`,
tried in that order. -/
def parseChoices : JS → Except Err PS
  | .nil => .ok .nil
  | .cons hd t =>
    match hd with
    | .obj em =>
      let tryBool : Except Err PM :=
        match preCheck bewtSchema em with
        | .error e => .error e
        | .ok _ =>
          match parseFields bewtSchema em with
          | .error e => .error e
          | .ok fs =>
            match BooleanExpression.validate_only_one_rule fs with
            | .error e => .error e
            | .ok _ => .ok fs
      match tryBool with
      | .ok fs =>
        match parseChoices t with
        | .error e => .error e
        | .ok rest => .ok (.cons (.node fs) rest)
      | .error _ =>
        let tryDTE : Except Err PM :=
          match preCheck dtewtSchema em with
          | .error e => .error e
          | .ok _ =>
            match parseFields dtewtSchema em with
            | .error e => .error e
            | .ok fs =>
              match DataTestExpression.validate_only_one_rule_is_set dtewtNames fs with
              | .error e => .error e
              | .ok _ => .ok fs
        match tryDTE with
        | .error e => .error e
        | .ok fs =>
          match parseChoices t with
          | .error e => .error e
          | .ok rest => .ok (.cons (.node fs) rest)
    | _ => .error .invalidFieldValue

/-- Parse `And`/`Or` operand lists:
`Union[DataTestExpression, BooleanExpression]`, tried in that order. -/
def parseExprElems : JS → Except Err PS
  | .nil => .ok .nil
  | .cons hd t =>
    match hd with
    | .obj em =>
      let tryDTE : Except Err PM :=
        match preCheck dataTestExpressionSchema em with
        | .error e => .error e
        | .ok _ =>
          match parseFields dataTestExpressionSchema em with
          | .error e => .error e
          | .ok fs =>
            match DataTestExpression.validate_only_one_rule_is_set dteNames fs with
            | .error e => .error e
            | .ok _ => .ok fs
      match tryDTE with
      | .ok fs =>
        match parseExprElems t with
        | .error e => .error e
        | .ok rest => .ok (.cons (.node fs) rest)
      | .error _ =>
        let tryBool : Except Err PM :=
          match preCheck booleanExpressionSchema em with
          | .error e => .error e
          | .ok _ =>
            match parseFields booleanExpressionSchema em with
            | .error e => .error e
            | .ok fs =>
              match BooleanExpression.validate_only_one_rule fs with
              | .error e => .error e
              | .ok _ => .ok fs
        match tryBool with
        | .error e => .error e
        | .ok fs =>
          match parseExprElems t with
          | .error e => .error e
          | .ok rest => .ok (.cons (.node fs) rest)
    | _ => .error .invalidFieldValue

/-- Parse a `Branches` list of nested `StepFunctionDefinition`s. -/
def parseDefs : JS → Except Err PS
  | .nil => .ok .nil
  | .cons hd t =>
    match hd with
    | .obj dm =>
      match preCheck definitionSchema dm with
      | .error e => .error e
      | .ok _ =>
        match parseFields definitionSchema dm with
        | .error e => .error e
        | .ok fs =>
          match definitionRoot fs with
          | .error e => .error e
          | .ok _ =>
            match parseDefs t with
            | .error e => .error e
            | .ok rest => .ok (.cons (.node fs) rest)
    | _ => .error .invalidFieldValue

end

/-- Validate one state document (`StepFunctionState` construction). -/
def parseStepFunctionState (j : J) : Except Err PM :=
  match j with
  | .obj sm =>
    match lookupJM sm "Type" with
    | some (.str tag) =>
      match schemaForTag tag with
      | some sch =>
        match preCheck sch sm with
        | .error e => .error e
        | .ok _ =>
          match parseFields sch sm with
          | .error e => .error e
          | .ok fs =>
            match rootForTag tag fs with
            | .error e => .error e
            | .ok _ => .ok fs
      | none => .error .unknownStateType
    | _ => .error .unknownStateType
  | _ => .error .invalidFieldValue

/-- Validate a whole definition document
(`StepFunctionDefinition` construction). -/
def parseStepFunctionDefinition (j : J) : Except Err PM :=
  match j with
  | .obj dm =>
    match preCheck definitionSchema dm with
    | .error e => .error e
    | .ok _ =>
      match parseFields definitionSchema dm with
      | .error e => .error e
      | .ok fs =>
        match definitionRoot fs with
        | .error e => .error e
        | .ok _ => .ok fs
  | _ => .error .invalidFieldValue

/-- `StepFunctionDefinition.dict` (and, structurally, `.json`):
re-serialize emitting exactly the explicitly-set fields
(`exclude_unset=True`). -/
def StepFunctionDefinition.dict (fields : PM) : J :=
  .obj (sMap fields)

/-! ## Actual graph reachability (claim-side notion)

Modelled from the spec's contrast: "reachability here is
transition-closure membership, not a BFS from `StartAt` through
intermediate hops".  The source computes no such traversal; this
breadth-first closure exists only to state that contrast. -/

def lookupState (states : List (String × PM)) (nm : String) : Option PM :=
  (states.find? (fun p => p.1 == nm)).map (fun p => p.2)

def bfsStep (states : List (String × PM)) (cur : List String) : List String :=
  (cur ++ cur.flatMap (fun nm =>
    match lookupState states nm with
    | some st => stateTransitions st
    | none => [])).dedup

def bfsIter (states : List (String × PM)) : Nat → List String → List String
  | 0, cur => cur
  | n + 1, cur => bfsIter states n (bfsStep states cur)

/-- The states actually reachable from `startAt` by following
transitions through intermediate hops. -/
def bfsReachable (startAt : String) (states : List (String × PM)) : List String :=
  bfsIter states states.length [startAt]

/-! ## The `transitions` contract as the specification words it -/

/-- "`[Next]` if set, else `[]`" (presence by the source's truthiness
test, so the empty string does not count as set). -/
def specNextPart (st : PM) : List String :=
  (getStrP st "Next").toList.filter (fun s => !(s == ""))

/-- "`[Default]` (if set)". -/
def specDefaultPart (st : PM) : List String :=
  (getStrP st "Default").toList.filter (fun s => !(s == ""))

/-- `transitions()` as described by the claim: Pass/Wait yield `[Next]`
if set else `[]`; Task/Parallel/Map yield `[Next]` (if set) followed by
every catch spec's target in declaration order; Choice yields
`[Default]` (if set) followed by every choice rule's target in
rule-declaration order; Fail/Succeed always yield `[]`. -/
def transitionsSpec (st : PM) : List String :=
  match stateTypeOf st with
  | some .Pass | some .Wait => specNextPart st
  | some .Task | some .Parallel | some .Map =>
    specNextPart st ++ (match getCatchSeq st with
                        | some cs => catchersTransitions cs
                        | none => [])
  | some .Choice =>
    specDefaultPart st ++ (match getP st "Choices" with
                           | some (.list cs) => choicesTransitions cs
                           | _ => [])
  | some .Fail | some .Succeed => []
  | none => []

/-! ## Concrete documents used by the claims -/

/-- The spec's round-trip example state, inside a minimal definition:
`{"Type": "Pass", "Parameters": {}, "End": true}`. -/
def passRoundTripDoc : J :=
  .obj (jobj [("StartAt", .str "A"),
    ("States", .obj (jobj [("A", .obj (jobj [("Type", .str "Pass"),
      ("Parameters", .obj (jobj [])), ("End", .bool true)]))]))])

/-- The parsed form of `passRoundTripDoc`. -/
def passRoundTripParsed : PM :=
  .cons "StartAt" (.prim (.str "A"))
    (.cons "States" (.node (.cons "A" (.node
      (.cons "Type" (.prim (.str "Pass"))
        (.cons "Parameters" (.prim (.obj .nil))
          (.cons "End" (.prim (.bool true)) .nil)))) .nil)) .nil)

/-- The repository's own "Simple Task State" valid test case
(`tests/test_task_state.py`): a Task with neither `TimeoutSeconds` nor
`TimeoutSecondsPath` (and neither heartbeat field). -/
def simpleTaskDoc : J :=
  .obj (jobj [("Type", .str "Task"), ("Comment", .str "No info"),
    ("Resource", .str "http://localhost:5000"),
    ("Parameters", .obj (jobj [])),
    ("ResultPath", .str "$.some_path"), ("End", .bool true)])

/-- A Task state with `Next` set to the empty string, no `End`, and one
catcher. -/
def emptyNextTaskDoc : J :=
  .obj (jobj [("Type", .str "Task"), ("Resource", .str "r"),
    ("Parameters", .obj (jobj [])),
    ("TimeoutSeconds", .num 5), ("HeartbeatSeconds", .num 5),
    ("Next", .str ""),
    ("Catch", .arr (jarr [.obj (jobj [("ErrorEquals", .arr (jarr [.str "E"])),
      ("Next", .str "H")])]))])

/-- A definition whose states `B` and `C` reference only each other:
every defined name is referenced, but `B` and `C` cannot be reached from
`StartAt` by following transitions. -/
def cycleDoc : J :=
  .obj (jobj [("StartAt", .str "A"),
    ("States", .obj (jobj [
      ("A", .obj (jobj [("Type", .str "Pass"), ("End", .bool true)])),
      ("B", .obj (jobj [("Type", .str "Pass"), ("Next", .str "C")])),
      ("C", .obj (jobj [("Type", .str "Pass"), ("Next", .str "B")]))]))])

/-- The parsed `States` mapping of `cycleDoc`. -/
def cycleStatesPM : PM :=
  .cons "A" (.node (.cons "Type" (.prim (.str "Pass"))
      (.cons "End" (.prim (.bool true)) .nil)))
    (.cons "B" (.node (.cons "Type" (.prim (.str "Pass"))
        (.cons "Next" (.prim (.str "C")) .nil)))
      (.cons "C" (.node (.cons "Type" (.prim (.str "Pass"))
          (.cons "Next" (.prim (.str "B")) .nil))) .nil))

/-- The parsed form of `cycleDoc`. -/
def cycleParsed : PM :=
  .cons "StartAt" (.prim (.str "A")) (.cons "States" (.node cycleStatesPM) .nil)

/-- The states of `cycleDoc` as a name-to-fields list. -/
def cycleStates : List (String × PM) := toListStates cycleStatesPM

/-- The repository's "Unexpected top level fields" test case: a valid
definition plus an undeclared `SomeCustomField` key (object form). -/
def extraFieldMap : JM :=
  jobj [("StartAt", .str "SimplePass"), ("Comment", .str "Comment"),
    ("SomeCustomField", .str "This is disallowed"),
    ("States", .obj (jobj [("SimplePass", .obj (jobj [("Type", .str "Pass"),
      ("Parameters", .obj (jobj [])), ("End", .bool true)]))]))]

/-- The repository's "Unexpected top level fields" test case. -/
def extraFieldDoc : J := .obj extraFieldMap

/-- A `Retry` element carrying the undeclared key `Bogus`. -/
def bogusRetryElemMap : JM :=
  jobj [("ErrorEquals", .arr (jarr [.str "E"])), ("Bogus", .num 1)]

/-- A Task state whose retry spec carries the undeclared key `Bogus`. -/
def bogusRetryTaskDoc : J :=
  .obj (jobj [("Type", .str "Task"), ("Resource", .str "r"),
    ("Parameters", .obj (jobj [])),
    ("TimeoutSeconds", .num 5), ("HeartbeatSeconds", .num 5),
    ("End", .bool true),
    ("Retry", .arr (jarr [.obj bogusRetryElemMap]))])

/-- The parsed `Retry` element of `bogusRetryTaskDoc`: `Bogus` is gone. -/
def bogusRetryElemParsed : PM :=
  .cons "ErrorEquals" (.prim (.arr (jarr [.str "E"]))) .nil

/-- The parsed form of `bogusRetryTaskDoc`. -/
def bogusRetryTaskParsed : PM :=
  .cons "Type" (.prim (.str "Task"))
    (.cons "Resource" (.prim (.str "r"))
      (.cons "Parameters" (.prim (.obj .nil))
        (.cons "TimeoutSeconds" (.prim (.num 5))
          (.cons "HeartbeatSeconds" (.prim (.num 5))
            (.cons "End" (.prim (.bool true))
              (.cons "Retry" (.list (.cons (.node bogusRetryElemParsed) .nil))
                .nil))))))

/-- A definition whose single Task state carries the bogus retry key. -/
def bogusRetryDefDoc : J :=
  .obj (jobj [("StartAt", .str "A"),
    ("States", .obj (jobj [("A", bogusRetryTaskDoc)]))])

/-- The parsed form of `bogusRetryDefDoc`. -/
def bogusRetryDefParsed : PM :=
  .cons "StartAt" (.prim (.str "A"))
    (.cons "States" (.node (.cons "A" (.node bogusRetryTaskParsed) .nil)) .nil)

/-- The key list of the first `Retry` element of state `name`, read off
a definition document: compares the input against the re-serialized
output field-set by field-set. -/
def firstRetryElemKeys (j : J) (name : String) : List String :=
  match j with
  | .obj m =>
    match lookupJM m "States" with
    | some (.obj sm) =>
      match lookupJM sm name with
      | some (.obj st) =>
        match lookupJM st "Retry" with
        | some (.arr (.cons (.obj em) _)) => keysJM em
        | _ => []
      | _ => []
    | _ => []
  | _ => []

/-! # Theorems -/

/-! ## Helper lemmas -/

theorem optTruthyList (o : Option String) :
    (if truthyOptStr o then [o.getD ""] else []) = o.toList.filter (fun s => !(s == "")) := by
  cases o with
  | none => simp [truthyOptStr]
  | some s =>
    simp only [truthyOptStr, Option.getD, Option.toList, List.filter]
    cases hs : s == "" <;> simp [hs]

theorem nextPart_eq_spec (st : PM) : nextPartOf st = specNextPart st := by
  unfold nextPartOf specNextPart
  exact optTruthyList _

/-! ## Claim theorems (first batch) -/

/-- C4: on the code as written, a Task with neither `TimeoutSeconds` nor
`TimeoutSecondsPath` is rejected: `enforce_exclusive_fields` also raises
when zero fields of a group are set, so each of the supposed
"at most one" pairs is in fact an "exactly one" group.  The input here is
the repository's own "Simple Task State" *valid* test case. -/
theorem task_without_timeout_rejected :
    parseStepFunctionState simpleTaskDoc
      = .error (.missingRequiredField ["TimeoutSeconds", "TimeoutSecondsPath"]) := rfl

/-- C5: `enforce_datetime_format` accepts the timezone-less string
`"2020-01-01T12:00:00"` (with the external parser accepting it, as arrow
does): the naive-string guard `v[-5] != "+" and v[-3] != ":" and not
v.endswith("Z")` never fires for a time ending `HH:MM:SS`, whose
third-from-last character is the `':'` the guard mistakes for an offset. -/
theorem naive_datetime_accepted :
    enforce_datetime_format true "2020-01-01T12:00:00" = .ok ()
    ∧ pyEndsWith "2020-01-01T12:00:00" "Z" = false
    ∧ pyCharAt "2020-01-01T12:00:00" (-5) ≠ some '+'
    ∧ pyCharAt "2020-01-01T12:00:00" (-3) = some ':' :=
  ⟨rfl, rfl, by decide, rfl⟩

/-- C6: the shared next-or-end shape (used by Pass, Task, Wait, Parallel
and Map through `NextOrEndState`): a truthy `Next` together with
`End = true` is a `ConflictingFields` rejection; neither field set is a
`MissingRequiredField` rejection; exactly one of the two succeeds. -/
theorem nextOrEnd_exactly_one (nxt : Option String) (e : Bool) :
    (truthyOptStr nxt = true ∧ e = true →
      nextOrEndCore nxt e = .error (.conflictingFields ["Next", "End"]))
    ∧ (nxt = none ∧ e = false →
      nextOrEndCore nxt e = .error (.missingRequiredField ["Next", "End"]))
    ∧ (truthyOptStr nxt = true ∧ e = false → nextOrEndCore nxt e = .ok ())
    ∧ (nxt = none ∧ e = true → nextOrEndCore nxt e = .ok ()) := by
  refine ⟨?_, ?_, ?_, ?_⟩
  · rintro ⟨h1, h2⟩; subst h2; simp [nextOrEndCore, h1]
  · rintro ⟨h1, h2⟩; subst h1; subst h2; simp [nextOrEndCore, truthyOptStr]
  · rintro ⟨h1, h2⟩
    subst h2
    cases nxt with
    | none => simp [truthyOptStr] at h1
    | some s => simp [nextOrEndCore, h1]
  · rintro ⟨h1, h2⟩; subst h1; subst h2; simp [nextOrEndCore, truthyOptStr]

theorem nextOrEnd_exactly_one_witness :
    nextOrEndCore (some "X") true = .error (.conflictingFields ["Next", "End"])
    ∧ nextOrEndCore none false = .error (.missingRequiredField ["Next", "End"])
    ∧ nextOrEndCore (some "X") false = .ok ()
    ∧ nextOrEndCore none true = .ok () :=
  ⟨(nextOrEnd_exactly_one (some "X") true).1 ⟨rfl, rfl⟩,
   (nextOrEnd_exactly_one none false).2.1 ⟨rfl, rfl⟩,
   (nextOrEnd_exactly_one (some "X") false).2.2.1 ⟨rfl, rfl⟩,
   (nextOrEnd_exactly_one none true).2.2.2 ⟨rfl, rfl⟩⟩

/-- C7: `DataTestExpression.validate_only_one_rule_is_set` checks the
`values.keys() − {Variable, Next}` operator candidates (39 of them):
zero set fails `MissingRequiredField`, more than one set fails
`ConflictingFields`, exactly one set succeeds. -/
theorem dte_exactly_one_operator (values : PM) :
    (((dteRuleFields dteNames).filter (fun f => isSetP values f)).length = 0 →
      DataTestExpression.validate_only_one_rule_is_set dteNames values
        = .error (.missingRequiredField (dteRuleFields dteNames)))
    ∧ (((dteRuleFields dteNames).filter (fun f => isSetP values f)).length > 1 →
      DataTestExpression.validate_only_one_rule_is_set dteNames values
        = .error (.conflictingFields
            ((dteRuleFields dteNames).filter (fun f => isSetP values f))))
    ∧ (((dteRuleFields dteNames).filter (fun f => isSetP values f)).length = 1 →
      DataTestExpression.validate_only_one_rule_is_set dteNames values = .ok ())
    ∧ (dteRuleFields dteNames).length = 39
    ∧ "Variable" ∉ dteRuleFields dteNames
    ∧ "Next" ∉ dteRuleFields dteNames := by
  refine ⟨?_, ?_, ?_, rfl, by decide, by decide⟩
  · intro h
    unfold DataTestExpression.validate_only_one_rule_is_set enforce_exclusive_fields
    simp [h]
  · intro h
    unfold DataTestExpression.validate_only_one_rule_is_set enforce_exclusive_fields
    have h1 : ¬ (((dteRuleFields dteNames).filter (fun f => isSetP values f)).length ≤ 1) := by
      omega
    simp [h1]
  · intro h
    unfold DataTestExpression.validate_only_one_rule_is_set enforce_exclusive_fields
    simp [h]

theorem dte_exactly_one_operator_witness :
    DataTestExpression.validate_only_one_rule_is_set dteNames
      (.cons "Variable" (.prim (.str "$.x"))
        (.cons "StringEquals" (.prim (.str "a")) .nil)) = .ok () :=
  (dte_exactly_one_operator _).2.2.1 rfl

/-- C9: for every parsed state, `transitions` is exactly what the
specification describes: Pass/Wait give `[Next]` if set (truthily) else
`[]`; Task/Parallel/Map give `[Next]` (if set) followed by the catch
targets in declaration order, without walking branches or the iterator;
Choice gives `[Default]` (if set) followed by the rule targets in
declaration order; Fail/Succeed always give `[]`. -/
theorem transitions_match_spec (st : PM) : stateTransitions st = transitionsSpec st := by
  unfold stateTransitions transitionsSpec
  cases h : stateTypeOf st with
  | none => rfl
  | some ty =>
    cases ty
    · exact nextPart_eq_spec st
    · simp only [TaskState.transitions, catchPartOf, nextPart_eq_spec]
    · exact nextPart_eq_spec st
    · simp only [ChoiceState.transitions, specDefaultPart, optTruthyList]
    · rfl
    · simp only [ParallelState.transitions, catchPartOf, nextPart_eq_spec]
    · simp only [MapState.transitions, catchPartOf, nextPart_eq_spec]
    · rfl

/-- C10 counterexample: a Task with `Next` set to the empty string (and
`End` absent) passes the next-or-end shape check, yet its `transitions()`
is not the empty list — its catch target remains. -/
theorem emptyNext_task_keeps_catch_transition :
    exceptOk (parseStepFunctionState emptyNextTaskDoc) = true
    ∧ (parseStepFunctionState emptyNextTaskDoc).map (fun st => getStrP st "Next")
        = .ok (some "")
    ∧ (parseStepFunctionState emptyNextTaskDoc).map (fun st => getBoolP st "End")
        = .ok false
    ∧ (parseStepFunctionState emptyNextTaskDoc).map stateTransitions = .ok ["H"]
    ∧ (["H"] : List String) ≠ [] :=
  ⟨rfl, rfl, rfl, rfl, by decide⟩

/-- C10 (amended): a next-or-end state given `Next = ""` with `End`
absent or false passes the next-or-end validation (presence is tested by
truthiness), and `Next` contributes nothing to `transitions()`: Pass and
Wait yield `[]`, while Task/Parallel/Map yield exactly their catch
targets (so the state is effectively terminal when it has no catchers). -/
theorem emptyNext_accepted_contributes_no_next :
    (∀ st : PM, getStrP st "Next" = some "" → getBoolP st "End" = false →
      NextOrEndState.validate_mutually_exclusive_fields st = .ok ())
    ∧ (∀ st : PM, getStrP st "Next" = some "" →
        PassState.transitions st = [] ∧ WaitState.transitions st = []
        ∧ TaskState.transitions st = catchPartOf st
        ∧ ParallelState.transitions st = catchPartOf st
        ∧ MapState.transitions st = catchPartOf st) := by
  constructor
  · intro st h1 h2
    unfold NextOrEndState.validate_mutually_exclusive_fields
    rw [h1, h2]
    rfl
  · intro st h1
    have hn : nextPartOf st = [] := by
      unfold nextPartOf
      rw [h1]
      rfl
    exact ⟨hn, hn, by simp [TaskState.transitions, hn],
      by simp [ParallelState.transitions, hn], by simp [MapState.transitions, hn]⟩

theorem emptyNext_accepted_contributes_no_next_witness :
    NextOrEndState.validate_mutually_exclusive_fields
      (.cons "Next" (.prim (.str "")) .nil) = .ok ()
    ∧ TaskState.transitions (.cons "Next" (.prim (.str "")) .nil)
        = catchPartOf (.cons "Next" (.prim (.str "")) .nil) :=
  ⟨emptyNext_accepted_contributes_no_next.1
     (PM.cons "Next" (.prim (.str "")) .nil) rfl rfl,
   (emptyNext_accepted_contributes_no_next.2
     (PM.cons "Next" (.prim (.str "")) .nil) rfl).2.2.1⟩

/-- C3: the claim says an undeclared key *anywhere* causes
`UnexpectedField`, with the retry specifications (`Retriers`) among the
cited objects.  That is false of the code: `Retriers` is the one model
class without a `Config`, so the library's default open-schema policy
applies to it and an unknown key on a `Retry` element is silently
ignored, not rejected.  Concretely: a Task whose `Retry` element is
`{"ErrorEquals": ["E"], "Bogus": 1}` validates; the unknown key is
looked up present on the input but absent from the parsed fields and
from the re-serialized output.  The closed-schema half of the claim does
hold everywhere else: the repository's own "Unexpected top level fields"
document is rejected with `UnexpectedField` end to end. -/
theorem retrier_unknown_key_ignored :
    parseStepFunctionState bogusRetryTaskDoc = .ok bogusRetryTaskParsed
    ∧ lookupJM bogusRetryElemMap "Bogus" = some (.num 1)
    ∧ getP bogusRetryTaskParsed "Retry"
        = some (.list (.cons (.node bogusRetryElemParsed) .nil))
    ∧ getP bogusRetryElemParsed "Bogus" = none
    ∧ keysJM (sMap bogusRetryElemParsed) = ["ErrorEquals"]
    ∧ parseStepFunctionDefinition extraFieldDoc
        = .error (.unexpectedField "SomeCustomField") :=
  ⟨rfl, rfl, rfl, rfl, rfl, rfl⟩

/-! Characterizations of the set differences computed by
`validate_transition_states_exist`. -/

theorem filter_diff_eq_nil_iff (base other : List String) :
    (base.dedup.filter (fun r => decide (r ∉ other))) = []
      ↔ ∀ r ∈ base, r ∈ other := by
  rw [List.filter_eq_nil_iff]
  constructor
  · intro h r hr
    have := h r (List.mem_dedup.mpr hr)
    simpa using this
  · intro h r hr
    simp [h r (List.mem_dedup.mp hr)]

theorem mem_filter_diff (base other : List String) (x : String) :
    x ∈ base.dedup.filter (fun r => decide (r ∉ other))
      ↔ x ∈ base ∧ x ∉ other := by
  rw [List.mem_filter, List.mem_dedup]
  simp

/-- C1: graph validation is membership-only.  `validate_transition_states_exist`
accepts exactly when every referenced name (`StartAt` together with every
state's transitions) is defined and every defined name is referenced;
otherwise it fails with `UnknownStateReference` listing `referenced −
defined` (checked first) or with `UnreachableState` listing `defined −
referenced`.  No traversal from `StartAt` is performed: the concrete
definition `cycleDoc` — whose states `B` and `C` are referenced only by
each other and are unreachable from `StartAt` by actually following
transitions — validates in full. -/
theorem graph_validation_is_membership_only :
    (∀ (sa : String) (states : List (String × PM)),
      validate_transition_states_exist sa states = .ok ()
        ↔ ((∀ r ∈ referencedStatesList sa states, r ∈ definedStatesList states)
            ∧ (∀ d ∈ definedStatesList states, d ∈ referencedStatesList sa states)))
    ∧ (∀ (sa : String) (states : List (String × PM)),
      (∃ r ∈ referencedStatesList sa states, r ∉ definedStatesList states) →
      ∃ l, validate_transition_states_exist sa states
          = .error (.unknownStateReference l)
        ∧ ∀ x, (x ∈ l ↔ x ∈ referencedStatesList sa states
            ∧ x ∉ definedStatesList states))
    ∧ (∀ (sa : String) (states : List (String × PM)),
      (∀ r ∈ referencedStatesList sa states, r ∈ definedStatesList states) →
      (∃ d ∈ definedStatesList states, d ∉ referencedStatesList sa states) →
      ∃ l, validate_transition_states_exist sa states
          = .error (.unreachableState l)
        ∧ ∀ x, (x ∈ l ↔ x ∈ definedStatesList states
            ∧ x ∉ referencedStatesList sa states))
    ∧ parseStepFunctionDefinition cycleDoc = .ok cycleParsed
    ∧ validate_transition_states_exist "A" cycleStates = .ok ()
    ∧ "B" ∈ definedStatesList cycleStates
    ∧ "B" ∉ bfsReachable "A" cycleStates := by
  have hrun : ∀ (sa : String) (states : List (String × PM)),
      validate_transition_states_exist sa states =
        (if ((referencedStatesList sa states).dedup.filter
            (fun r => decide (r ∉ definedStatesList states))).isEmpty then
          (if ((definedStatesList states).dedup.filter
              (fun d => decide (d ∉ referencedStatesList sa states))).isEmpty then
            .ok ()
          else .error (.unreachableState ((definedStatesList states).dedup.filter
              (fun d => decide (d ∉ referencedStatesList sa states)))))
        else .error (.unknownStateReference ((referencedStatesList sa states).dedup.filter
            (fun r => decide (r ∉ definedStatesList states))))) :=
    fun _ _ => rfl
  refine ⟨?_, ?_, ?_, rfl, rfl, by decide, by decide⟩
  · intro sa states
    rw [hrun]
    by_cases h1 : ((referencedStatesList sa states).dedup.filter
        (fun r => decide (r ∉ definedStatesList states))) = []
    · by_cases h2 : ((definedStatesList states).dedup.filter
          (fun d => decide (d ∉ referencedStatesList sa states))) = []
      · simp only [h1, h2, List.isEmpty_nil, if_true]
        constructor
        · intro _
          exact ⟨(filter_diff_eq_nil_iff _ _).mp h1, (filter_diff_eq_nil_iff _ _).mp h2⟩
        · intro _; trivial
      · rw [if_pos (by simp only [h1, List.isEmpty_nil]), if_neg (by simp only [List.isEmpty_iff]; exact h2)]
        constructor
        · intro h; cases h
        · rintro ⟨_, hAll⟩
          exact absurd ((filter_diff_eq_nil_iff _ _).mpr hAll) h2
    · rw [if_neg (by simp only [List.isEmpty_iff]; exact h1)]
      constructor
      · intro h; cases h
      · rintro ⟨hAll, _⟩
        exact absurd ((filter_diff_eq_nil_iff _ _).mpr hAll) h1
  · intro sa states hex
    rw [hrun]
    have h1 : ¬ ((referencedStatesList sa states).dedup.filter
        (fun r => decide (r ∉ definedStatesList states))) = [] := by
      intro hnil
      obtain ⟨r, hr, hnot⟩ := hex
      exact hnot ((filter_diff_eq_nil_iff _ _).mp hnil r hr)
    rw [if_neg (by simp only [List.isEmpty_iff]; exact h1)]
    exact ⟨_, rfl, fun x => mem_filter_diff _ _ x⟩
  · intro sa states hAll hex
    rw [hrun]
    have h1 : ((referencedStatesList sa states).dedup.filter
        (fun r => decide (r ∉ definedStatesList states))) = [] :=
      (filter_diff_eq_nil_iff _ _).mpr hAll
    have h2 : ¬ ((definedStatesList states).dedup.filter
        (fun d => decide (d ∉ referencedStatesList sa states))) = [] := by
      intro hnil
      obtain ⟨d, hd, hnot⟩ := hex
      exact hnot ((filter_diff_eq_nil_iff _ _).mp hnil d hd)
    rw [if_pos (by simp only [h1, List.isEmpty_nil]), if_neg (by simp only [List.isEmpty_iff]; exact h2)]
    exact ⟨_, rfl, fun x => mem_filter_diff _ _ x⟩

theorem graph_validation_is_membership_only_witness :
    validate_transition_states_exist "A" cycleStates = .ok () :=
  (graph_validation_is_membership_only.1 "A" cycleStates).mpr (by decide)

/-! Equivalence of `enforce_jsonpath` with the specification's wording,
by strong induction on document size. -/

theorem jsonpath_equiv_all : ∀ n : Nat,
    (∀ j : J, sizeJ j ≤ n → exceptOk (enforce_jsonpath j) = jsonPathSpec j)
    ∧ (∀ m : JM, sizeJM m ≤ n →
        exceptOk (enforce_jsonpath_items m) = jsonPathSpecItems m) := by
  intro n
  induction n using Nat.strong_induction_on with
  | _ n ih =>
    constructor
    · intro j hs
      match j with
      | .null => rfl
      | .bool b => rfl
      | .num q => rfl
      | .arr xs => rfl
      | .str s =>
        simp only [enforce_jsonpath, jsonPathSpec]
        cases h : pyStartsWith s "$." <;> simp [h, exceptOk]
      | .obj kvs =>
        have hlt : sizeJM kvs < n := by simp only [sizeJ] at hs; omega
        exact (ih (sizeJM kvs) hlt).2 kvs le_rfl
    · intro m hs
      match m with
      | .nil => rfl
      | .cons k v t =>
        have hszt : sizeJM t < n := by simp only [sizeJM] at hs; omega
        have iht := (ih (sizeJM t) hszt).2 t le_rfl
        unfold enforce_jsonpath_items jsonPathSpecItems
        cases hc : (pyEndsWith k ".$" && !(isJsonPathStr v)) with
        | true =>
          have h1 : pyEndsWith k ".$" = true := by
            cases hpe : pyEndsWith k ".$"
            · rw [hpe] at hc; simp at hc
            · rfl
          have h2 : isJsonPathStr v = false := by
            cases hj : isJsonPathStr v
            · rfl
            · rw [hj] at hc; simp at hc
          simp [hc, h1, h2, exceptOk]
        | false =>
          have hfirst : (if pyEndsWith k ".$" then isJsonPathStr v else true) = true := by
            cases hpe : pyEndsWith k ".$"
            · simp
            · cases hj : isJsonPathStr v
              · rw [hpe, hj] at hc; simp at hc
              · simp [hj]
          simp only [Bool.false_eq_true, if_false, hfirst, Bool.true_and]
          match v with
          | .null | .bool _ | .num _ | .str _ | .arr _ => simpa using iht
          | .obj kvs =>
            have hlt : sizeJM kvs < n := by simp only [sizeJM, sizeJ] at hs; omega
            have ihk := (ih (sizeJM kvs) hlt).2 kvs le_rfl
            cases hi : enforce_jsonpath_items kvs with
            | error e =>
              rw [hi] at ihk
              simp only [exceptOk] at ihk
              simp [hi, ← ihk, exceptOk]
            | ok u =>
              rw [hi] at ihk
              simp only [exceptOk] at ihk
              simp [hi, ← ihk, exceptOk]
              exact iht

/-- C8: `enforce_jsonpath` accepts exactly the values described by the
specification: `null` accepted; a string accepted iff it starts with
`"$."` (else `InvalidJsonPath`); a mapping accepted iff every key ending
`".$"` has a string value starting with `"$."` and every nested mapping
value recursively passes the same rule, with all other keys
unconstrained. -/
theorem checkJsonPath_matches_spec (j : J) :
    exceptOk (enforce_jsonpath j) = jsonPathSpec j :=
  (jsonpath_equiv_all (sizeJ j)).1 j le_rfl

/-! Helper lemmas for decomposing the parser's error-propagation chains. -/

theorem chainNode (c1 : Except Err Unit) (X : Except Err PM) (r : PM → Except Err Unit)
    (pv : PV)
    (hp : ((match c1 with
           | Except.error e => Except.error e
           | Except.ok _ =>
             match X with
             | Except.error e => Except.error e
             | Except.ok fs =>
               match r fs with
               | Except.error e => Except.error e
               | Except.ok _ => Except.ok (PV.node fs)) : Except Err PV) = .ok pv) :
    ∃ fs, X = .ok fs ∧ pv = .node fs := by
  cases c1 with
  | error e => simp at hp
  | ok u =>
    simp only [] at hp
    cases X with
    | error e => simp at hp
    | ok fs =>
      cases hr : r fs with
      | error e => simp [hr] at hp
      | ok u2 =>
        simp [hr] at hp
        exact ⟨fs, rfl, hp.symm⟩

theorem chainNodeNoRoot (c1 : Except Err Unit) (X : Except Err PM)
    (cont : PM → Except Err PS) (ps : PS)
    (hp : ((match c1 with
           | Except.error e => Except.error e
           | Except.ok _ =>
             match X with
             | Except.error e => Except.error e
             | Except.ok fs => cont fs) : Except Err PS) = .ok ps) :
    ∃ fs, X = .ok fs ∧ cont fs = .ok ps := by
  cases c1 with
  | error e => simp at hp
  | ok u =>
    cases X with
    | error e => simp at hp
    | ok fs => exact ⟨fs, rfl, hp⟩

theorem chainFieldsOk (c1 : Except Err Unit) (X : Except Err PM)
    (r : PM → Except Err Unit) (fs : PM)
    (hp : ((match c1 with
           | Except.error e => Except.error e
           | Except.ok _ =>
             match X with
             | Except.error e => Except.error e
             | Except.ok fs2 =>
               match r fs2 with
               | Except.error e => Except.error e
               | Except.ok _ => Except.ok fs2) : Except Err PM) = .ok fs) :
    X = .ok fs := by
  cases c1 with
  | error e => simp at hp
  | ok u =>
    cases X with
    | error e => simp at hp
    | ok fs2 =>
      cases hr : r fs2 with
      | error e => simp [hr] at hp
      | ok u2 =>
        simp [hr] at hp
        rw [hp]

theorem chainSeqCons (c1 : Except Err Unit) (X : Except Err PM)
    (Y : Except Err PS) (out : PS)
    (hp : ((match c1 with
           | Except.error e => Except.error e
           | Except.ok _ =>
             match X with
             | Except.error e => Except.error e
             | Except.ok fs =>
               match Y with
               | Except.error e => Except.error e
               | Except.ok rest => Except.ok (PS.cons (PV.node fs) rest)) :
        Except Err PS) = .ok out) :
    ∃ fs rest, X = .ok fs ∧ Y = .ok rest ∧ out = .cons (.node fs) rest := by
  cases c1 with
  | error e => simp at hp
  | ok u =>
    cases X with
    | error e => simp at hp
    | ok fs =>
      cases Y with
      | error e => simp at hp
      | ok rest =>
        simp at hp
        exact ⟨fs, rest, rfl, rfl, hp.symm⟩

theorem chainStatesCons (name : String) (c1 : Except Err Unit) (X : Except Err PM)
    (r : PM → Except Err Unit) (Y : Except Err PM) (out : PM)
    (hp : ((match c1 with
           | Except.error e => Except.error e
           | Except.ok _ =>
             match X with
             | Except.error e => Except.error e
             | Except.ok fs =>
               match r fs with
               | Except.error e => Except.error e
               | Except.ok _ =>
                 match Y with
                 | Except.error e => Except.error e
                 | Except.ok rest => Except.ok (PM.cons name (PV.node fs) rest)) :
        Except Err PM) = .ok out) :
    ∃ fs rest, X = .ok fs ∧ Y = .ok rest ∧ out = .cons name (.node fs) rest := by
  cases c1 with
  | error e => simp at hp
  | ok u =>
    cases X with
    | error e => simp at hp
    | ok fs =>
      cases hr : r fs with
      | error e => simp [hr] at hp
      | ok u2 =>
        cases Y with
        | error e => simp [hr] at hp
        | ok rest =>
          simp [hr] at hp
          exact ⟨fs, rest, rfl, rfl, hp.symm⟩

theorem chainDefSeqCons (c1 : Except Err Unit) (X : Except Err PM)
    (r : PM → Except Err Unit) (Y : Except Err PS) (out : PS)
    (hp : ((match c1 with
           | Except.error e => Except.error e
           | Except.ok _ =>
             match X with
             | Except.error e => Except.error e
             | Except.ok fs =>
               match r fs with
               | Except.error e => Except.error e
               | Except.ok _ =>
                 match Y with
                 | Except.error e => Except.error e
                 | Except.ok rest => Except.ok (PS.cons (PV.node fs) rest)) :
        Except Err PS) = .ok out) :
    ∃ fs rest, X = .ok fs ∧ Y = .ok rest ∧ out = .cons (.node fs) rest := by
  cases c1 with
  | error e => simp at hp
  | ok u =>
    cases X with
    | error e => simp at hp
    | ok fs =>
      cases hr : r fs with
      | error e => simp [hr] at hp
      | ok u2 =>
        cases Y with
        | error e => simp [hr] at hp
        | ok rest =>
          simp [hr] at hp
          exact ⟨fs, rest, rfl, rfl, hp.symm⟩

theorem chainUnionNode (a b : Except Err PM) (pv : PV)
    (hp : ((match a with
           | Except.ok fs => Except.ok (PV.node fs)
           | Except.error _ =>
             match b with
             | Except.ok fs => Except.ok (PV.node fs)
             | Except.error e => Except.error e) : Except Err PV) = .ok pv) :
    ∃ fs, pv = .node fs ∧ (a = .ok fs ∨ b = .ok fs) := by
  cases a with
  | ok fs =>
    simp at hp
    exact ⟨fs, hp.symm, Or.inl rfl⟩
  | error e1 =>
    cases b with
    | ok fs =>
      simp at hp
      exact ⟨fs, hp.symm, Or.inr rfl⟩
    | error e2 => simp at hp

theorem chainUnionSeq (a b : Except Err PM) (Y : Except Err PS) (out : PS)
    (hp : ((match a with
           | Except.ok fs =>
             match Y with
             | Except.error e => Except.error e
             | Except.ok rest => Except.ok (PS.cons (PV.node fs) rest)
           | Except.error _ =>
             match b with
             | Except.error e => Except.error e
             | Except.ok fs =>
               match Y with
               | Except.error e => Except.error e
               | Except.ok rest => Except.ok (PS.cons (PV.node fs) rest)) :
        Except Err PS) = .ok out) :
    ∃ fs rest, Y = .ok rest ∧ out = .cons (.node fs) rest
      ∧ (a = .ok fs ∨ b = .ok fs) := by
  cases a with
  | ok fs =>
    cases Y with
    | error e => simp at hp
    | ok rest =>
      simp at hp
      exact ⟨fs, rest, rfl, hp.symm, Or.inl rfl⟩
  | error e1 =>
    cases b with
    | error e2 => simp at hp
    | ok fs =>
      cases Y with
      | error e => simp at hp
      | ok rest =>
        simp at hp
        exact ⟨fs, rest, rfl, hp.symm, Or.inr rfl⟩

/-! Helper lemmas about schemas and the cleanliness predicates used to
state the (amended) round-trip property. -/

theorem and3_true (a b c : Bool) (h : (a && b && c) = true) :
    a = true ∧ b = true ∧ c = true :=
  ⟨((Bool.and_eq_true a b).mp ((Bool.and_eq_true (a && b) c).mp h).1).1,
   ((Bool.and_eq_true a b).mp ((Bool.and_eq_true (a && b) c).mp h).1).2,
   ((Bool.and_eq_true (a && b) c).mp h).2⟩

theorem cleanJ_arr (xs : JS) (h : cleanJ (.arr xs) = true) : cleanJS xs = true := by
  unfold cleanJ at h
  exact h

theorem cleanJ_obj (m : JM) (h : cleanJ (.obj m) = true) : cleanJM m = true := by
  unfold cleanJ at h
  exact h

theorem cleanJS_cons (x : J) (t : JS) (h : cleanJS (.cons x t) = true) :
    cleanJ x = true ∧ cleanJS t = true := by
  unfold cleanJS at h
  exact (Bool.and_eq_true _ _).mp h

theorem cleanJM_cons (k : String) (v : J) (t : JM)
    (h : cleanJM (.cons k v t) = true) :
    retryOkKey k v = true ∧ cleanJ v = true ∧ cleanJM t = true := by
  unfold cleanJM at h
  exact and3_true _ _ _ h

theorem retryOkKey_retry (v : J) (h : retryOkKey "Retry" v = true) :
    retryOk v = true := by
  unfold retryOkKey at h
  simpa using h

theorem retryOk_arr (xs : JS) (h : retryOk (.arr xs) = true) :
    retryElemsDeclared xs = true := by
  unfold retryOk at h
  exact h

theorem retrierElems_cons_obj (cm : JM) (t : JS)
    (h : retryElemsDeclared (.cons (.obj cm) t) = true) :
    retrierKeysDeclared cm = true ∧ retryElemsDeclared t = true := by
  unfold retryElemsDeclared at h
  exact (Bool.and_eq_true _ _).mp h

theorem retrierKeys_cons (k : String) (v : J) (t : JM)
    (h : retrierKeysDeclared (.cons k v t) = true) :
    (fieldTy retriersSchema k).isSome = true ∧ retrierKeysDeclared t = true := by
  unfold retrierKeysDeclared at h
  exact (Bool.and_eq_true _ _).mp h

theorem cleanForTy_split (ty : FTy) (v : J) (h : cleanForTy ty v = true) :
    cleanJ v = true ∧ (isRetryListTy ty = true → retryOk v = true) := by
  unfold cleanForTy at h
  have h2 := (Bool.and_eq_true _ _).mp h
  refine ⟨h2.1, fun hrt => ?_⟩
  have h3 := h2.2
  rw [hrt] at h3
  simpa using h3

theorem cleanForTy_intro (ty : FTy) (k : String) (v : J)
    (hok : retryOkKey k v = true) (hcv : cleanJ v = true)
    (hname : isRetryListTy ty = true → k = "Retry") :
    cleanForTy ty v = true := by
  unfold cleanForTy
  cases hrt : isRetryListTy ty
  · simp [hrt, hcv]
  · have hk := hname hrt
    subst hk
    have hro := retryOkKey_retry v hok
    simp [hrt, hcv, hro]

theorem fieldTy_mem (schema : List FieldSpec) (k : String) (ty : FTy)
    (h : fieldTy schema k = some ty) :
    ∃ f, f ∈ schema ∧ f.name = k ∧ f.ty = ty := by
  unfold fieldTy at h
  cases hf : schema.find? (fun f => f.name == k) with
  | none =>
    rw [hf] at h
    simp at h
  | some f =>
    rw [hf] at h
    simp at h
    have hm := List.mem_of_find?_eq_some hf
    have hpred := List.find?_some hf
    simp at hpred
    exact ⟨f, hm, hpred, h⟩

theorem retryConv_name (schema : List FieldSpec) (k : String) (ty : FTy)
    (hconv : retryConv schema = true) (h : fieldTy schema k = some ty)
    (hrt : isRetryListTy ty = true) : k = "Retry" := by
  obtain ⟨f, hm, hn, hty⟩ := fieldTy_mem schema k ty h
  have hall := List.all_eq_true.mp hconv f hm
  rw [hty, hrt] at hall
  simp at hall
  rw [← hn, hall]

theorem allPrim_fieldTy (schema : List FieldSpec)
    (hall : schema.all (fun f => isPrimTy f.ty) = true) (k : String) (ty : FTy)
    (h : fieldTy schema k = some ty) : isPrimTy ty = true := by
  obtain ⟨f, hm, _, hty⟩ := fieldTy_mem schema k ty h
  have hf := List.all_eq_true.mp hall f hm
  rwa [hty] at hf

theorem retriersSchema_prim (k : String) (ty : FTy)
    (h : fieldTy retriersSchema k = some ty) : isPrimTy ty = true :=
  allPrim_fieldTy retriersSchema rfl k ty h

theorem retryConvForTag (tag : String) (sch : List FieldSpec)
    (h : schemaForTag tag = some sch) : retryConv sch = true := by
  unfold schemaForTag at h
  cases hst : stateTypeOfTag tag with
  | none =>
    rw [hst] at h
    simp at h
  | some sty =>
    rw [hst] at h
    cases sty <;> (simp at h; subst h; rfl)

/-! Round trip for the non-recursive field kinds, separated out: a
primitive field parses to exactly the raw input value. -/

set_option maxHeartbeats 1000000 in
theorem parseVal_prim_roundtrip (ty : FTy) (v : J) (pv : PV)
    (hprim : isPrimTy ty = true) (hp : parseVal ty v = .ok pv) :
    sVal pv = v := by
  cases ty with
  | lit tag =>
    unfold parseVal at hp
    cases v with
    | str s =>
      cases hq : s == tag
      · simp [hq] at hp
      · simp [hq] at hp
        subst hp
        rfl
    | null => simp at hp
    | bool b => simp at hp
    | num q => simp at hp
    | arr xs => simp at hp
    | obj kvs => simp at hp
  | str =>
    unfold parseVal at hp
    cases v with
    | str s => simp at hp; subst hp; rfl
    | null => simp at hp
    | bool b => simp at hp
    | num q => simp at hp
    | arr xs => simp at hp
    | obj kvs => simp at hp
  | strictBool =>
    unfold parseVal at hp
    cases v with
    | bool b => simp at hp; subst hp; rfl
    | null => simp at hp
    | str s => simp at hp
    | num q => simp at hp
    | arr xs => simp at hp
    | obj kvs => simp at hp
  | int =>
    unfold parseVal at hp
    cases v with
    | num q => simp at hp; subst hp; rfl
    | null => simp at hp
    | bool b => simp at hp
    | str s => simp at hp
    | arr xs => simp at hp
    | obj kvs => simp at hp
  | posInt =>
    unfold parseVal at hp
    cases v with
    | num q =>
      by_cases hq : (0 : Int) < q
      · simp [hq] at hp
        subst hp
        rfl
      · simp [hq] at hp
    | null => simp at hp
    | bool b => simp at hp
    | str s => simp at hp
    | arr xs => simp at hp
    | obj kvs => simp at hp
  | posNum =>
    unfold parseVal at hp
    cases v with
    | num q =>
      by_cases hq : (0 : Int) < q
      · simp [hq] at hp
        subst hp
        rfl
      · simp [hq] at hp
    | null => simp at hp
    | bool b => simp at hp
    | str s => simp at hp
    | arr xs => simp at hp
    | obj kvs => simp at hp
  | jpStr =>
    unfold parseVal at hp
    cases v with
    | str s =>
      cases he : enforce_jsonpath (.str s) with
      | error e => simp [he] at hp
      | ok u => simp [he] at hp; subst hp; rfl
    | null => simp at hp
    | bool b => simp at hp
    | num q => simp at hp
    | arr xs => simp at hp
    | obj kvs => simp at hp
  | isoStr =>
    unfold parseVal at hp
    cases v with
    | str s =>
      cases he : enforce_datetime_format (arrowParses s) s with
      | error e => simp [he] at hp
      | ok u => simp [he] at hp; subst hp; rfl
    | null => simp at hp
    | bool b => simp at hp
    | num q => simp at hp
    | arr xs => simp at hp
    | obj kvs => simp at hp
  | waitTimestamp =>
    unfold parseVal at hp
    simp at hp
  | jpDict =>
    unfold parseVal at hp
    cases v with
    | obj kvs =>
      cases he : enforce_jsonpath_items kvs with
      | error e => simp [he] at hp
      | ok u => simp [he] at hp; subst hp; rfl
    | null => simp at hp
    | bool b => simp at hp
    | num q => simp at hp
    | str s => simp at hp
    | arr xs => simp at hp
  | strList1 =>
    unfold parseVal at hp
    cases v with
    | arr xs =>
      cases hq : isNilJS xs
      · cases hq2 : allStringsJS xs
        · simp [hq, hq2] at hp
        · simp [hq, hq2] at hp
          subst hp
          rfl
      · simp [hq] at hp
    | null => simp at hp
    | bool b => simp at hp
    | num q => simp at hp
    | str s => simp at hp
    | obj kvs => simp at hp
  | retryList => simp [isPrimTy] at hprim
  | catchList => simp [isPrimTy] at hprim
  | choiceList => simp [isPrimTy] at hprim
  | exprList => simp [isPrimTy] at hprim
  | notExpr => simp [isPrimTy] at hprim
  | branchList => simp [isPrimTy] at hprim
  | iterator => simp [isPrimTy] at hprim
  | statesMap => simp [isPrimTy] at hprim

/-! The round-trip property, by strong induction on document size: a
successfully parsed object re-serializes to exactly the input, provided
the input is *clean* — it has no undeclared keys inside `Retry`
elements, the one place where the open-schema `Retriers` policy drops
input.  The last conjunct covers `parseFieldsIgnore` itself: on an
element whose keys are all declared it drops nothing. -/

set_option maxHeartbeats 4000000 in
theorem parse_roundtrip_all : ∀ n : Nat,
    (∀ (ty : FTy) (v : J) (pv : PV), sizeJ v ≤ n → cleanForTy ty v = true →
      parseVal ty v = .ok pv → sVal pv = v)
    ∧ (∀ (schema : List FieldSpec) (m : JM) (fs : PM), sizeJM m ≤ n →
        retryConv schema = true → cleanJM m = true →
        parseFields schema m = .ok fs → sMap fs = m)
    ∧ (∀ (m : JM) (fs : PM), sizeJM m ≤ n → cleanJM m = true →
        parseStates m = .ok fs → sMap fs = m)
    ∧ (∀ (s : JS) (ps : PS), sizeJS s ≤ n → cleanJS s = true →
        parseCatchers s = .ok ps → sSeq ps = s)
    ∧ (∀ (s : JS) (ps : PS), sizeJS s ≤ n → retryElemsDeclared s = true →
        parseRetriers s = .ok ps → sSeq ps = s)
    ∧ (∀ (s : JS) (ps : PS), sizeJS s ≤ n → cleanJS s = true →
        parseChoices s = .ok ps → sSeq ps = s)
    ∧ (∀ (s : JS) (ps : PS), sizeJS s ≤ n → cleanJS s = true →
        parseExprElems s = .ok ps → sSeq ps = s)
    ∧ (∀ (s : JS) (ps : PS), sizeJS s ≤ n → cleanJS s = true →
        parseDefs s = .ok ps → sSeq ps = s)
    ∧ (∀ (m : JM) (fs : PM), sizeJM m ≤ n → retrierKeysDeclared m = true →
        parseFieldsIgnore retriersSchema m = .ok fs → sMap fs = m) := by
  intro n
  induction n using Nat.strong_induction_on with
  | _ n ih =>
    refine ⟨?_, ?_, ?_, ?_, ?_, ?_, ?_, ?_, ?_⟩
    · intro ty v pv hs hc hp
      cases ty with
      | lit tag => exact parseVal_prim_roundtrip (.lit tag) v pv rfl hp
      | str => exact parseVal_prim_roundtrip .str v pv rfl hp
      | strictBool => exact parseVal_prim_roundtrip .strictBool v pv rfl hp
      | int => exact parseVal_prim_roundtrip .int v pv rfl hp
      | posInt => exact parseVal_prim_roundtrip .posInt v pv rfl hp
      | posNum => exact parseVal_prim_roundtrip .posNum v pv rfl hp
      | jpStr => exact parseVal_prim_roundtrip .jpStr v pv rfl hp
      | isoStr => exact parseVal_prim_roundtrip .isoStr v pv rfl hp
      | waitTimestamp => exact parseVal_prim_roundtrip .waitTimestamp v pv rfl hp
      | jpDict => exact parseVal_prim_roundtrip .jpDict v pv rfl hp
      | strList1 => exact parseVal_prim_roundtrip .strList1 v pv rfl hp
      | retryList =>
        unfold parseVal at hp
        cases v with
        | arr xs =>
          have hre : retryElemsDeclared xs = true :=
            retryOk_arr xs ((cleanForTy_split _ _ hc).2 rfl)
          cases hq : isNilJS xs
          · cases hps : parseRetriers xs with
            | error e => simp [hq, hps] at hp
            | ok ps =>
              simp [hq, hps] at hp
              subst hp
              have hlt : sizeJS xs < n := by simp only [sizeJ] at hs; omega
              have r1 := (ih _ hlt).2.2.2.2.1 xs ps le_rfl hre hps
              simp [sVal, r1]
          · simp [hq] at hp
        | null => simp at hp
        | bool b => simp at hp
        | num q => simp at hp
        | str s => simp at hp
        | obj kvs => simp at hp
      | catchList =>
        unfold parseVal at hp
        cases v with
        | arr xs =>
          have hcs : cleanJS xs = true := cleanJ_arr xs (cleanForTy_split _ _ hc).1
          cases hq : isNilJS xs
          · cases hps : parseCatchers xs with
            | error e => simp [hq, hps] at hp
            | ok ps =>
              simp [hq, hps] at hp
              subst hp
              have hlt : sizeJS xs < n := by simp only [sizeJ] at hs; omega
              have r1 := (ih _ hlt).2.2.2.1 xs ps le_rfl hcs hps
              simp [sVal, r1]
          · simp [hq] at hp
        | null => simp at hp
        | bool b => simp at hp
        | num q => simp at hp
        | str s => simp at hp
        | obj kvs => simp at hp
      | choiceList =>
        unfold parseVal at hp
        cases v with
        | arr xs =>
          have hcs : cleanJS xs = true := cleanJ_arr xs (cleanForTy_split _ _ hc).1
          cases hq : isNilJS xs
          · cases hps : parseChoices xs with
            | error e => simp [hq, hps] at hp
            | ok ps =>
              simp [hq, hps] at hp
              subst hp
              have hlt : sizeJS xs < n := by simp only [sizeJ] at hs; omega
              have r1 := (ih _ hlt).2.2.2.2.2.1 xs ps le_rfl hcs hps
              simp [sVal, r1]
          · simp [hq] at hp
        | null => simp at hp
        | bool b => simp at hp
        | num q => simp at hp
        | str s => simp at hp
        | obj kvs => simp at hp
      | exprList =>
        unfold parseVal at hp
        cases v with
        | arr xs =>
          have hcs : cleanJS xs = true := cleanJ_arr xs (cleanForTy_split _ _ hc).1
          cases hps : parseExprElems xs with
          | error e => simp [hps] at hp
          | ok ps =>
            cases hq : isNilJS xs
            · simp [hps, hq] at hp
              subst hp
              have hlt : sizeJS xs < n := by simp only [sizeJ] at hs; omega
              have r1 := (ih _ hlt).2.2.2.2.2.2.1 xs ps le_rfl hcs hps
              simp [sVal, r1]
            · simp [hps, hq] at hp
        | null => simp at hp
        | bool b => simp at hp
        | num q => simp at hp
        | str s => simp at hp
        | obj kvs => simp at hp
      | notExpr =>
        unfold parseVal at hp
        cases v with
        | obj em =>
          have hcm : cleanJM em = true := cleanJ_obj em (cleanForTy_split _ _ hc).1
          simp only [] at hp
          obtain ⟨fs, hpv, hor⟩ := chainUnionNode _ _ _ hp
          subst hpv
          have hlt : sizeJM em < n := by simp only [sizeJ] at hs; omega
          rcases hor with h | h
          · have hX := chainFieldsOk _ _ _ _ h
            have r1 := (ih _ hlt).2.1 dataTestExpressionSchema em fs le_rfl rfl hcm hX
            simp [sVal, r1]
          · have hX := chainFieldsOk _ _ _ _ h
            have r1 := (ih _ hlt).2.1 booleanExpressionSchema em fs le_rfl rfl hcm hX
            simp [sVal, r1]
        | null => simp at hp
        | bool b => simp at hp
        | num q => simp at hp
        | str s => simp at hp
        | arr xs => simp at hp
      | branchList =>
        unfold parseVal at hp
        cases v with
        | arr xs =>
          have hcs : cleanJS xs = true := cleanJ_arr xs (cleanForTy_split _ _ hc).1
          cases hps : parseDefs xs with
          | error e => simp [hps] at hp
          | ok ps =>
            cases hq : isNilJS xs
            · simp [hps, hq] at hp
              subst hp
              have hlt : sizeJS xs < n := by simp only [sizeJ] at hs; omega
              have r1 := (ih _ hlt).2.2.2.2.2.2.2.1 xs ps le_rfl hcs hps
              simp [sVal, r1]
            · simp [hps, hq] at hp
        | null => simp at hp
        | bool b => simp at hp
        | num q => simp at hp
        | str s => simp at hp
        | obj kvs => simp at hp
      | iterator =>
        unfold parseVal at hp
        cases v with
        | obj dm =>
          have hcm : cleanJM dm = true := cleanJ_obj dm (cleanForTy_split _ _ hc).1
          simp only [] at hp
          obtain ⟨fs, hX, hpv⟩ := chainNode _ _ _ _ hp
          subst hpv
          have hlt : sizeJM dm < n := by simp only [sizeJ] at hs; omega
          have r1 := (ih _ hlt).2.1 definitionSchema dm fs le_rfl rfl hcm hX
          simp [sVal, r1]
        | null => simp at hp
        | bool b => simp at hp
        | num q => simp at hp
        | str s => simp at hp
        | arr xs => simp at hp
      | statesMap =>
        unfold parseVal at hp
        cases v with
        | obj sm =>
          have hcm : cleanJM sm = true := cleanJ_obj sm (cleanForTy_split _ _ hc).1
          cases hps : parseStates sm with
          | error e => simp [hps] at hp
          | ok pm =>
            cases hv2 : validate_states_names (keysJM sm) with
            | error e => simp [hps, hv2] at hp
            | ok u =>
              simp [hps, hv2] at hp
              subst hp
              have hlt : sizeJM sm < n := by simp only [sizeJ] at hs; omega
              have r1 := (ih _ hlt).2.2.1 sm pm le_rfl hcm hps
              simp [sVal, r1]
        | null => simp at hp
        | bool b => simp at hp
        | num q => simp at hp
        | str s => simp at hp
        | arr xs => simp at hp
    · intro schema m fs hs hconv hclean hp
      cases m with
      | nil =>
        unfold parseFields at hp
        simp at hp
        subst hp
        rfl
      | cons k v t =>
        unfold parseFields at hp
        have hcl := cleanJM_cons k v t hclean
        cases hf : fieldTy schema k with
        | none => simp [hf] at hp
        | some ty =>
          cases hpv : parseVal ty v with
          | error e => simp [hf, hpv] at hp
          | ok pv =>
            cases hrest : parseFields schema t with
            | error e => simp [hf, hpv, hrest] at hp
            | ok rest =>
              simp [hf, hpv, hrest] at hp
              subst hp
              have h1 : sizeJ v < n := by simp only [sizeJM] at hs; omega
              have h2 : sizeJM t < n := by simp only [sizeJM] at hs; omega
              have hcf : cleanForTy ty v = true :=
                cleanForTy_intro ty k v hcl.1 hcl.2.1
                  (fun hrt => retryConv_name schema k ty hconv hf hrt)
              have r1 := (ih _ h1).1 ty v pv le_rfl hcf hpv
              have r2 := (ih _ h2).2.1 schema t rest le_rfl hconv hcl.2.2 hrest
              simp [sMap, r1, r2]
    · intro m fs hs hclean hp
      cases m with
      | nil =>
        unfold parseStates at hp
        simp at hp
        subst hp
        rfl
      | cons name sj t =>
        unfold parseStates at hp
        have hcl := cleanJM_cons name sj t hclean
        cases sj with
        | obj sm =>
          have hcsm : cleanJM sm = true := cleanJ_obj sm hcl.2.1
          cases hlk : lookupJM sm "Type" with
          | none => simp [hlk] at hp
          | some tj =>
            cases tj with
            | str tag =>
              cases hsch : schemaForTag tag with
              | none => simp [hlk, hsch] at hp
              | some sch =>
                simp only [hlk, hsch] at hp
                obtain ⟨fs2, rest, hX, hY, hout⟩ := chainStatesCons name _ _ _ _ _ hp
                subst hout
                have h1 : sizeJM sm < n := by simp only [sizeJM, sizeJ] at hs; omega
                have h2 : sizeJM t < n := by simp only [sizeJM] at hs; omega
                have r1 := (ih _ h1).2.1 sch sm fs2 le_rfl
                  (retryConvForTag tag sch hsch) hcsm hX
                have r2 := (ih _ h2).2.2.1 t rest le_rfl hcl.2.2 hY
                simp [sMap, sVal, r1, r2]
            | null => simp [hlk] at hp
            | bool b => simp [hlk] at hp
            | num q => simp [hlk] at hp
            | arr xs => simp [hlk] at hp
            | obj kvs => simp [hlk] at hp
        | null => simp at hp
        | bool b => simp at hp
        | num q => simp at hp
        | str s => simp at hp
        | arr xs => simp at hp
    · intro s ps hs hclean hp
      cases s with
      | nil =>
        unfold parseCatchers at hp
        simp at hp
        subst hp
        rfl
      | cons hd t =>
        unfold parseCatchers at hp
        cases hd with
        | obj cm =>
          have hcl := cleanJS_cons _ _ hclean
          have hcm : cleanJM cm = true := cleanJ_obj cm hcl.1
          simp only [] at hp
          obtain ⟨fs, rest, hX, hY, hout⟩ := chainSeqCons _ _ _ _ hp
          subst hout
          have h1 : sizeJM cm < n := by simp only [sizeJS, sizeJ] at hs; omega
          have h2 : sizeJS t < n := by simp only [sizeJS] at hs; omega
          have r1 := (ih _ h1).2.1 catchersSchema cm fs le_rfl rfl hcm hX
          have r2 := (ih _ h2).2.2.2.1 t rest le_rfl hcl.2 hY
          simp [sSeq, sVal, r1, r2]
        | null => simp at hp
        | bool b => simp at hp
        | num q => simp at hp
        | str s2 => simp at hp
        | arr xs => simp at hp
    · intro s ps hs hre hp
      cases s with
      | nil =>
        unfold parseRetriers at hp
        simp at hp
        subst hp
        rfl
      | cons hd t =>
        unfold parseRetriers at hp
        cases hd with
        | obj cm =>
          have hre2 := retrierElems_cons_obj cm t hre
          simp only [] at hp
          obtain ⟨fs, rest, hX, hY, hout⟩ := chainSeqCons _ _ _ _ hp
          subst hout
          have h1 : sizeJM cm < n := by simp only [sizeJS, sizeJ] at hs; omega
          have h2 : sizeJS t < n := by simp only [sizeJS] at hs; omega
          have r1 := (ih _ h1).2.2.2.2.2.2.2.2 cm fs le_rfl hre2.1 hX
          have r2 := (ih _ h2).2.2.2.2.1 t rest le_rfl hre2.2 hY
          simp [sSeq, sVal, r1, r2]
        | null => simp at hp
        | bool b => simp at hp
        | num q => simp at hp
        | str s2 => simp at hp
        | arr xs => simp at hp
    · intro s ps hs hclean hp
      cases s with
      | nil =>
        unfold parseChoices at hp
        simp at hp
        subst hp
        rfl
      | cons hd t =>
        unfold parseChoices at hp
        cases hd with
        | obj em =>
          have hcl := cleanJS_cons _ _ hclean
          have hcm : cleanJM em = true := cleanJ_obj em hcl.1
          simp only [] at hp
          obtain ⟨fs, rest, hY, hout, hor⟩ := chainUnionSeq _ _ _ _ hp
          subst hout
          have h1 : sizeJM em < n := by simp only [sizeJS, sizeJ] at hs; omega
          have h2 : sizeJS t < n := by simp only [sizeJS] at hs; omega
          have r2 := (ih _ h2).2.2.2.2.2.1 t rest le_rfl hcl.2 hY
          rcases hor with h | h
          · have hX := chainFieldsOk _ _ _ _ h
            have r1 := (ih _ h1).2.1 bewtSchema em fs le_rfl rfl hcm hX
            simp [sSeq, sVal, r1, r2]
          · have hX := chainFieldsOk _ _ _ _ h
            have r1 := (ih _ h1).2.1 dtewtSchema em fs le_rfl rfl hcm hX
            simp [sSeq, sVal, r1, r2]
        | null => simp at hp
        | bool b => simp at hp
        | num q => simp at hp
        | str s2 => simp at hp
        | arr xs => simp at hp
    · intro s ps hs hclean hp
      cases s with
      | nil =>
        unfold parseExprElems at hp
        simp at hp
        subst hp
        rfl
      | cons hd t =>
        unfold parseExprElems at hp
        cases hd with
        | obj em =>
          have hcl := cleanJS_cons _ _ hclean
          have hcm : cleanJM em = true := cleanJ_obj em hcl.1
          simp only [] at hp
          obtain ⟨fs, rest, hY, hout, hor⟩ := chainUnionSeq _ _ _ _ hp
          subst hout
          have h1 : sizeJM em < n := by simp only [sizeJS, sizeJ] at hs; omega
          have h2 : sizeJS t < n := by simp only [sizeJS] at hs; omega
          have r2 := (ih _ h2).2.2.2.2.2.2.1 t rest le_rfl hcl.2 hY
          rcases hor with h | h
          · have hX := chainFieldsOk _ _ _ _ h
            have r1 := (ih _ h1).2.1 dataTestExpressionSchema em fs le_rfl rfl hcm hX
            simp [sSeq, sVal, r1, r2]
          · have hX := chainFieldsOk _ _ _ _ h
            have r1 := (ih _ h1).2.1 booleanExpressionSchema em fs le_rfl rfl hcm hX
            simp [sSeq, sVal, r1, r2]
        | null => simp at hp
        | bool b => simp at hp
        | num q => simp at hp
        | str s2 => simp at hp
        | arr xs => simp at hp
    · intro s ps hs hclean hp
      cases s with
      | nil =>
        unfold parseDefs at hp
        simp at hp
        subst hp
        rfl
      | cons hd t =>
        unfold parseDefs at hp
        cases hd with
        | obj dm =>
          have hcl := cleanJS_cons _ _ hclean
          have hcm : cleanJM dm = true := cleanJ_obj dm hcl.1
          simp only [] at hp
          obtain ⟨fs, rest, hX, hY, hout⟩ := chainDefSeqCons _ _ _ _ _ hp
          subst hout
          have h1 : sizeJM dm < n := by simp only [sizeJS, sizeJ] at hs; omega
          have h2 : sizeJS t < n := by simp only [sizeJS] at hs; omega
          have r1 := (ih _ h1).2.1 definitionSchema dm fs le_rfl rfl hcm hX
          have r2 := (ih _ h2).2.2.2.2.2.2.2.1 t rest le_rfl hcl.2 hY
          simp [sSeq, sVal, r1, r2]
        | null => simp at hp
        | bool b => simp at hp
        | num q => simp at hp
        | str s2 => simp at hp
        | arr xs => simp at hp
    · intro m fs hs hkd hp
      cases m with
      | nil =>
        unfold parseFieldsIgnore at hp
        simp at hp
        subst hp
        rfl
      | cons k v t =>
        unfold parseFieldsIgnore at hp
        have hkd2 := retrierKeys_cons k v t hkd
        cases hf : fieldTy retriersSchema k with
        | none =>
          rw [hf] at hkd2
          exact absurd hkd2.1 (by simp)
        | some ty =>
          cases hpv : parseVal ty v with
          | error e => simp [hf, hpv] at hp
          | ok pv =>
            cases hrest : parseFieldsIgnore retriersSchema t with
            | error e => simp [hf, hpv, hrest] at hp
            | ok rest =>
              simp [hf, hpv, hrest] at hp
              subst hp
              have hprim : isPrimTy ty = true := retriersSchema_prim k ty hf
              have r1 := parseVal_prim_roundtrip ty v pv hprim hpv
              have h2 : sizeJM t < n := by simp only [sizeJM] at hs; omega
              have r2 := (ih _ h2).2.2.2.2.2.2.2.2 t rest le_rfl hkd2.2 hrest
              simp [sMap, r1, r2]

/-- C2 (amended): re-serialization (`dict`/`json` with
`exclude_unset=True`) of a validated definition emits exactly the fields
recorded as explicitly set.  That is *not* always the whole input:
unknown keys inside `Retry` elements are silently dropped during
validation, because `Retriers` is the one model class without a
closed-schema `Config` (see `definition_roundtrip_fails_on_unknown_retry_key`).
For every validating document that is clean — no undeclared keys inside
its `Retry` elements — the round trip is exact. -/
theorem validated_definition_roundtrips (j : J) (fs : PM)
    (hclean : cleanJ j = true)
    (h : parseStepFunctionDefinition j = .ok fs) :
    StepFunctionDefinition.dict fs = j := by
  cases j with
  | obj dm =>
    unfold parseStepFunctionDefinition at h
    simp only [] at h
    have hX := chainFieldsOk _ _ _ _ h
    have hcm : cleanJM dm = true := cleanJ_obj dm hclean
    have hrt := (parse_roundtrip_all (sizeJM dm)).2.1 definitionSchema dm fs
      le_rfl rfl hcm hX
    unfold StepFunctionDefinition.dict
    rw [hrt]
  | null => unfold parseStepFunctionDefinition at h; simp at h
  | bool b => unfold parseStepFunctionDefinition at h; simp at h
  | num q => unfold parseStepFunctionDefinition at h; simp at h
  | str s => unfold parseStepFunctionDefinition at h; simp at h
  | arr xs => unfold parseStepFunctionDefinition at h; simp at h

theorem validated_definition_roundtrips_witness :
    cleanJ passRoundTripDoc = true
    ∧ parseStepFunctionDefinition passRoundTripDoc = .ok passRoundTripParsed
    ∧ StepFunctionDefinition.dict passRoundTripParsed = passRoundTripDoc :=
  ⟨rfl, rfl,
   validated_definition_roundtrips passRoundTripDoc passRoundTripParsed rfl rfl⟩

/-- C2 counterexample: the round trip is not exact on every validating
document.  A definition whose Task carries the `Retry` element
`{"ErrorEquals": ["E"], "Bogus": 1}` validates, yet the re-serialized
output's first `Retry` element keeps only `ErrorEquals`: the unknown key
`Bogus` was silently dropped by the open-schema `Retriers` class, so the
output differs from the input. -/
theorem definition_roundtrip_fails_on_unknown_retry_key :
    parseStepFunctionDefinition bogusRetryDefDoc = .ok bogusRetryDefParsed
    ∧ firstRetryElemKeys bogusRetryDefDoc "A" = ["ErrorEquals", "Bogus"]
    ∧ firstRetryElemKeys (StepFunctionDefinition.dict bogusRetryDefParsed) "A"
        = ["ErrorEquals"]
    ∧ (["ErrorEquals"] : List String) ≠ ["ErrorEquals", "Bogus"] :=
  ⟨rfl, rfl, rfl, by decide⟩
